import Mathlib

/-!
# smartping: the ICMP probe of `src/nettools/ping.go`

A shallow embedding of `pkg.Send` and `RunPing`.

* Go `int` and `time.Duration` values are integers (`Int`), bytes are `Fin 256`.
* A Go slice is a list; every slice the code indexes was produced by
  `make([]byte, n)` followed by `copy`, so its capacity equals its length.
* The operating system is an explicit environment `Env`: the result of every
  call `Send` makes on the socket, and the list of results of the successive
  `ReadFrom` calls.
* A run yields an `Outcome` (a returned value, a run-time panic, or `pending`
  when the supplied read results are used up while the loop is still
  listening) together with the list of external calls made, in order.
-/

namespace nettools

/-! ## Values of the Go runtime and of package `net` -/

/-- One octet. -/
abbrev Byte := Fin 256

/-- Truncating conversion `byte(n)`. -/
def byte (n : Nat) : Byte := ⟨n % 256, Nat.mod_lt n (by decide)⟩

/-- Go `error` value that is not nil. `timeout` records whether the dynamic
type implements `net.Error` and its `Timeout()` method reports true. -/
structure Error where
  msg : String
  timeout : Bool
  deriving DecidableEq, Repr

/-- The struct `net.IPAddr`; `IP` is `none` for the nil slice. -/
structure IPAddr where
  IP : Option (List Byte)
  Zone : String
  deriving DecidableEq, Repr

/-- Value of the interface `net.Addr`: the nil interface, a `*net.IPAddr`
(`none` is the nil pointer), or a value of any other dynamic type. -/
inductive Addr where
  | nil
  | ipAddr (p : Option IPAddr)
  | other (network str : String)
  deriving DecidableEq, Repr

/-- Method `net.IP.To4` on a slice of the given bytes; `none` is the nil result. -/
def To4 (ip : List Byte) : Option (List Byte) :=
  if ip.length = 4 then some ip
  else if ip.length = 16 ∧ (ip.take 10).all (fun b => b == 0) = true
      ∧ ip.getD 10 0 = 255 ∧ ip.getD 11 0 = 255 then
    some ((ip.drop 12).take 4)
  else none

/-- Result of running a Go function in the model. -/
inductive Outcome (α : Type) where
  | returned (a : α)
  | panicked (reason : String)
  | pending
  deriving DecidableEq, Repr

/-- Slice expression `b[lo:hi]` on a slice whose capacity equals its length;
`none` is the run-time panic "slice bounds out of range". -/
def sliceOf (b : List Byte) (lo hi : Nat) : Option (List Byte) :=
  if lo ≤ hi ∧ hi ≤ b.length then some ((b.drop lo).take (hi - lo)) else none

/-- Function `binary.BigEndian.Uint16` on a slice of at least two bytes. -/
def Uint16 (b : List Byte) : Nat :=
  (b.getD 0 0).val * 256 + (b.getD 1 0).val

/-- Conversion `uint16(n)` of a Go `int`. -/
def toUint16 (n : Int) : Nat := (n % 65536).toNat

/-- Function `binary.BigEndian.PutUint16`, as the two bytes written. -/
def PutUint16 (v : Nat) : List Byte := [byte (v / 256), byte v]

/-! ## Package `golang.org/x/net/icmp` (imported, not part of the repository) -/

/-- Value of the interface `icmp.Type`: an `ipv4.ICMPType` or an `ipv6.ICMPType`. -/
inductive ICMPType where
  | ipv4 (n : Nat)
  | ipv6 (n : Nat)
  deriving DecidableEq, Repr

/-- One decoded RFC 4884 extension object; its contents are never read by `Send`. -/
structure Extension where
  raw : List Byte
  deriving DecidableEq, Repr

/-- Value of the interface `icmp.MessageBody`, by dynamic type: `*icmp.Echo`,
`*icmp.TimeExceeded`, `*icmp.DstUnreach`, or one of the remaining body types
(`kind` names it). -/
inductive MessageBody where
  | Echo (ID Seq : Int) (Data : List Byte)
  | TimeExceeded (Data : List Byte) (Extensions : List Extension)
  | DstUnreach (Data : List Byte) (Extensions : List Extension)
  | Other (kind : String) (Data : List Byte)
  deriving DecidableEq, Repr

/-- The struct `icmp.Message` (`Typ` is its field `Type`); `Body` is `none` for the nil
interface. -/
structure Message where
  Typ : ICMPType
  Code : Int
  Checksum : Int
  Body : Option MessageBody
  deriving DecidableEq, Repr

namespace icmp

def errMessageTooShort : Error := ⟨"message too short", false⟩

def errInvalidProtocol : Error := ⟨"invalid protocol", false⟩

/-- Sum of the little-endian 16-bit words of `b`, an odd last byte added as is
(the loop of `checksum`, before reduction modulo `2^32`). -/
def checksumSum : List Byte → Nat
  | b0 :: b1 :: rest => (b1.val * 256 + b0.val) + checksumSum rest
  | [b0] => b0.val
  | [] => 0

/-- Function `checksum` of `icmp/message.go`; the accumulator is a `uint32`. -/
def checksum (b : List Byte) : Nat :=
  let s := checksumSum b % 2 ^ 32
  let s := (s / 65536 + s % 65536) % 2 ^ 32
  let s := (s + s / 65536) % 2 ^ 32
  65535 - s % 65536

/-- Method `(*Echo).Marshal`: identifier and sequence are written as `uint16`. -/
def EchoMarshal (ID Seq : Int) (Data : List Byte) : List Byte :=
  PutUint16 (toUint16 ID) ++ PutUint16 (toUint16 Seq) ++ Data

/-- Protocol number of a message type (`iana.ProtocolICMP` = 1,
`iana.ProtocolIPv6ICMP` = 58). -/
def protocol : ICMPType → Int
  | .ipv4 _ => 1
  | .ipv6 _ => 58

/-- Method `(*Message).Marshal(nil)` for a message whose body is a non-nil
`*icmp.Echo` (the only kind `RunPing` marshals). With a nil pseudo-header an
ICMPv6 message is returned with a zero checksum field; an ICMPv4 message gets
its checksum xor-ed into bytes 2 and 3. The call cannot fail for these inputs. -/
def MarshalEcho (typ : ICMPType) (Code : Int) (ID Seq : Int) (Data : List Byte) :
    Except Error (List Byte) :=
  let mtype : Byte := match typ with
    | .ipv4 n => byte n
    | .ipv6 n => byte n
  let b : List Byte := [mtype, byte (Code % 256).toNat, 0, 0] ++ EchoMarshal ID Seq Data
  if protocol typ = 58 then .ok b
  else
    let s := checksum b
    .ok (b.take 2 ++ [byte ((b.getD 2 0).val ^^^ (s % 256)),
                      byte ((b.getD 3 0).val ^^^ (s / 256 % 256))] ++ b.drop 4)

/-- Function `parseEcho`. -/
def parseEcho (b : List Byte) : Except Error MessageBody :=
  if b.length < 4 then .error errMessageTooShort
  else .ok (.Echo (Uint16 (b.take 2)) (Uint16 ((b.drop 2).take 2)) (b.drop 4))

/-- The parts of the library that are left abstract: `parseExtensions`
(RFC 4884 extension objects, reached only when the guard in
`parseMultipartMessageBody` finds room for them; the result is the extensions
and the adjusted length of the original datagram, `none` for an error), and the
body parsers of the message types `Send` never looks at. -/
structure Rest where
  parseExtensions : ICMPType → List Byte → Nat → Option (List Extension × Nat)
  parseOther : Int → ICMPType → List Byte → Except Error MessageBody

/-- Function `parseMultipartMessageBody`: the original datagram and the
extensions of a Destination Unreachable or Time Exceeded body `b` (at least four
bytes long). Without a valid extension structure the data is all of `b[4:]`. -/
def parseMultipartMessageBody (rest : Rest) (proto : Int) (typ : ICMPType) (b : List Byte) :
    List Byte × List Extension :=
  let l : Nat := if proto = 1 then 4 * (b.getD 1 0).val
    else if proto = 58 then 8 * (b.getD 0 0).val else 0
  if b.length = 4 then ([], [])
  else
    let body := b.drop 4
    -- the length guard at the head of parseExtensions
    let l := if 128 > l ∨ l + 8 > body.length then 128 else l
    let r := if l + 8 > body.length then none else rest.parseExtensions typ body l
    match r with
    | none => (body, [])
    | some (exts, l) => (body.take l ++ List.replicate (l - body.length) 0, exts)

/-- Function `parseTimeExceeded`. -/
def parseTimeExceeded (rest : Rest) (proto : Int) (typ : ICMPType) (b : List Byte) :
    Except Error MessageBody :=
  if b.length < 4 then .error errMessageTooShort
  else
    let r := parseMultipartMessageBody rest proto typ b
    .ok (.TimeExceeded r.1 r.2)

/-- Function `parseDstUnreach`. -/
def parseDstUnreach (rest : Rest) (proto : Int) (typ : ICMPType) (b : List Byte) :
    Except Error MessageBody :=
  if b.length < 4 then .error errMessageTooShort
  else
    let r := parseMultipartMessageBody rest proto typ b
    .ok (.DstUnreach r.1 r.2)

/-- Function `icmp.ParseMessage`: the four-byte header, then the body parser
registered for the message type. -/
def ParseMessage (rest : Rest) (proto : Int) (b : List Byte) : Except Error Message :=
  if b.length < 4 then .error errMessageTooShort
  else
    let code : Int := (b.getD 1 0).val
    let sum : Int := Uint16 ((b.drop 2).take 2)
    let mtype : Option ICMPType :=
      if proto = 1 then some (.ipv4 (b.getD 0 0).val)
      else if proto = 58 then some (.ipv6 (b.getD 0 0).val)
      else none
    match mtype with
    | none => .error errInvalidProtocol
    | some typ =>
      let body : Except Error MessageBody :=
        if typ = .ipv4 3 ∨ typ = .ipv6 1 then parseDstUnreach rest proto typ (b.drop 4)
        else if typ = .ipv4 11 ∨ typ = .ipv6 3 then parseTimeExceeded rest proto typ (b.drop 4)
        else if typ = .ipv4 8 ∨ typ = .ipv4 0 ∨ typ = .ipv6 128 ∨ typ = .ipv6 129 then
          parseEcho (b.drop 4)
        else rest.parseOther proto typ (b.drop 4)
      match body with
      | .error e => .error e
      | .ok mb => .ok ⟨typ, code, sum, some mb⟩

end icmp

/-! ## The operating system -/

/-- What one call of `t.conn.ReadFrom(buf)` delivers: the datagram (of which
the first `len(buf)` bytes are stored), the source address, the error, and the
value `time.Since(sendOn)` takes if it is evaluated while this packet is being
handled. -/
structure ReadResult where
  data : List Byte
  addr : Addr
  err : Option Error
  since : Int
  deriving DecidableEq, Repr

/-- The environment of one probe. Each field is the error result (`none` for
nil) of the call of the same name; `reads` are the results of the successive
`ReadFrom` calls; `rand` is the state of the random source, `rand.Intn n`
being `rand % n`. -/
structure Env where
  rand : Nat
  ListenPacket : String → String → Option Error
  SetReadDeadline : Int → Option Error
  SetHopLimit : Int → Option Error
  SetTTL : Int → Option Error
  WriteTo : List Byte → Addr → Option Error
  reads : List ReadResult
  ParseMessage : Int → List Byte → Except Error Message

/-- An external call made during a run. -/
inductive Effect where
  | ListenPacket (network address : String)
  | SetReadDeadline (maxrtt : Int)
  | SetHopLimit (ttl : Int)
  | SetTTL (ttl : Int)
  | WriteTo (b : List Byte) (dest : Addr)
  | ReadFrom
  | ParseMessage (proto : Int) (b : List Byte)
  | Close (conn : String)
  deriving DecidableEq, Repr

/-! ## `ping.go` -/

/-- The struct `pkg`, without the two connection handles, which live in `Env`. -/
structure pkg where
  netmsg : List Byte
  id : Int
  seq : Int
  maxrtt : Int
  dest : Addr
  deriving DecidableEq, Repr

/-- The struct `ICMP`. -/
structure ICMP where
  Addr : Addr
  RTT : Int
  MaxRTT : Int
  MinRTT : Int
  AvgRTT : Int
  Final : Bool
  Timeout : Bool
  Down : Bool
  Error : Option Error
  deriving DecidableEq, Repr

/-- The zero value `var hop ICMP`. -/
def ICMP.zero : ICMP := ⟨.nil, 0, 0, 0, 0, false, false, false, none⟩

/-- Lines 43-48 of `Send`: is the target IPv6? `none` is the nil-pointer panic
of `ip.IP` when `t.dest` holds a nil `*net.IPAddr`. -/
def destIsIPv6 : Addr → Option Bool
  | .nil => some false
  | .other _ _ => some false
  | .ipAddr none => none
  | .ipAddr (some ip) =>
    match ip.IP with
    | none => some false
    | some bytes => some (To4 bytes).isNone

/-- What one pass through the body of the receive loop does. -/
inductive Step where
  | next (hop : ICMP)
  | done (hop : ICMP)
  | panic (reason : String)
  deriving DecidableEq, Repr

/-- The two `case ...EchoReply` and the two `case ...DestinationUnreachable`
arms: a body of dynamic type `*icmp.Echo` with the probe's `id` and `seq`. -/
def matchEcho (t : pkg) (body : Option MessageBody) (hit : ICMP) (hop : ICMP) : Step :=
  match body with
  | some (.Echo ID Seq _) => if t.id = ID ∧ t.seq = Seq then .done hit else .next hop
  | _ => .next hop

/-- The two `case ...TimeExceeded` arms, `off` being 44 (IPv6) or 24 (IPv4):
`len(rply.Data) > off`, then `uint16(t.id) == Uint16(rply.Data[off:off+2])`. -/
def matchTimeExceeded (t : pkg) (off : Nat) (body : Option MessageBody) (hit : ICMP)
    (hop : ICMP) : Step :=
  match body with
  | some (.TimeExceeded Data _) =>
    if Data.length > off then
      match sliceOf Data off (off + 2) with
      | none => .panic "slice bounds out of range"
      | some s => if toUint16 t.id = Uint16 s then .done hit else .next hop
    else .next hop
  | _ => .next hop

/-- Lines 120-176 of `Send`: the switch on the type of the decoded message. -/
def classify (t : pkg) (isIPv6 : Bool) (hop : ICMP) (result : Message) (since : Int) : Step :=
  if isIPv6 then
    if result.Typ = .ipv6 129 then
      matchEcho t result.Body { hop with Final := true, RTT := since } hop
    else if result.Typ = .ipv6 3 then
      matchTimeExceeded t 44 result.Body { hop with RTT := since } hop
    else if result.Typ = .ipv6 1 then
      matchEcho t result.Body { hop with Down := true, RTT := since } hop
    else .next hop
  else
    if result.Typ = .ipv4 0 then
      matchEcho t result.Body { hop with Final := true, RTT := since } hop
    else if result.Typ = .ipv4 11 then
      matchTimeExceeded t 24 result.Body { hop with RTT := since } hop
    else if result.Typ = .ipv4 3 then
      matchEcho t result.Body { hop with Down := true, RTT := since } hop
    else .next hop

/-- Protocol number passed to `icmp.ParseMessage` (lines 109-113). -/
def protoOf (isIPv6 : Bool) : Int := if isIPv6 then 58 else 1

/-- Lines 97-176 of `Send`: one pass through the loop body on the read result `r`. -/
def step (env : Env) (t : pkg) (isIPv6 : Bool) (hop : ICMP) (r : ReadResult) :
    Step × List Effect :=
  let hop := { hop with Addr := r.addr, Error := r.err }
  match r.err with
  | some e =>
    if e.timeout then (.done { hop with Timeout := true }, [.ReadFrom])
    else (.done hop, [.ReadFrom])
  | none =>
    let b := r.data.take 1500
    match env.ParseMessage (protoOf isIPv6) b with
    | .error e => (.done { hop with Error := some e }, [.ReadFrom, .ParseMessage (protoOf isIPv6) b])
    | .ok result =>
      (classify t isIPv6 { hop with Error := none } result r.since,
        [.ReadFrom, .ParseMessage (protoOf isIPv6) b])

/-- The loop `for { ... }` of `Send` (lines 96-177) over the successive read results. -/
def recvLoop (env : Env) (t : pkg) (isIPv6 : Bool) :
    ICMP → List ReadResult → Outcome ICMP × List Effect
  | _, [] => (.pending, [.ReadFrom])
  | hop, r :: rs =>
    match step env t isIPv6 hop r with
    | (.done h, tr) => (.returned h, tr)
    | (.panic why, tr) => (.panicked why, tr)
    | (.next h, tr) =>
      let res := recvLoop env t isIPv6 h rs
      (res.1, tr ++ res.2)

/-- The deferred `Close` calls, run in reverse order when `Send` is left. -/
def closes (isIPv6 : Bool) : List Effect :=
  [.Close (if isIPv6 then "ipv6conn" else "ipv4conn"), .Close "conn"]

/-- The calls made on leaving `Send` once the socket is open: none while the
loop is still blocked in a read, the deferred `Close` calls otherwise (also
when the function is left by a panic). -/
def leave (isIPv6 : Bool) : Outcome ICMP → List Effect
  | .pending => []
  | _ => closes isIPv6

/-- Method `(*pkg).Send`. -/
def Send (env : Env) (t : pkg) (ttl : Int) : Outcome ICMP × List Effect :=
  let hop := ICMP.zero
  match destIsIPv6 t.dest with
  | none => (.panicked "invalid memory address or nil pointer dereference", [])
  | some isIPv6 =>
    let network := if isIPv6 then "ip6:ipv6-icmp" else "ip4:icmp"
    let address := if isIPv6 then "::" else "0.0.0.0"
    match env.ListenPacket network address with
    | some _ => (.returned hop, [.ListenPacket network address])
    | none =>
      let tr := [Effect.ListenPacket network address, .SetReadDeadline t.maxrtt]
      let hop := { hop with Error := env.SetReadDeadline t.maxrtt }
      if hop.Error ≠ none then (.returned hop, tr ++ closes isIPv6)
      else
        let setHops := if isIPv6 then Effect.SetHopLimit ttl else Effect.SetTTL ttl
        let hop := { hop with Error := if isIPv6 then env.SetHopLimit ttl else env.SetTTL ttl }
        if hop.Error ≠ none then (.returned hop, tr ++ [setHops] ++ closes isIPv6)
        else
          let tr := tr ++ [setHops, .WriteTo t.netmsg t.dest]
          let hop := { hop with Error := env.WriteTo t.netmsg t.dest }
          if hop.Error ≠ none then (.returned hop, tr ++ closes isIPv6)
          else
            let res := recvLoop env t isIPv6 hop env.reads
            (res.1, tr ++ res.2 ++ leave isIPv6 res.1)

/-- The payload `bytes.Repeat([]byte("Go Smart Ping!"), 4)`. -/
def payload : List Byte :=
  (List.replicate 4 ("Go Smart Ping!".toList.map fun c => byte c.toNat)).flatten

/-- Lines 188-195 of `RunPing`: type of the Echo Request that is built. -/
def requestType (IpAddr : Option IPAddr) : ICMPType :=
  match IpAddr with
  | none => .ipv4 8
  | some a =>
    match a.IP with
    | none => .ipv4 8
    | some bytes => if (To4 bytes).isNone then .ipv6 128 else .ipv4 8

/-- Lines 181-197 of `RunPing`: the probe `res` once the message is marshalled. -/
def newPkg (env : Env) (IpAddr : Option IPAddr) (maxrtt : Int) (seq : Int) : Except Error pkg :=
  let id : Int := Int.ofNat (env.rand % 65535)
  match icmp.MarshalEcho (requestType IpAddr) 0 id seq payload with
  | .error e => .error e
  | .ok netmsg => .ok ⟨netmsg, id, seq, maxrtt, .ipAddr IpAddr⟩

/-- Function `RunPing`. The `float64` result `float64(RTT.Nanoseconds()) / 1e6`
is given as the exact rational. -/
def RunPing (env : Env) (IpAddr : Option IPAddr) (maxrtt : Int) (maxttl : Int) (seq : Int) :
    Outcome (ℚ × Option Error) × List Effect :=
  match newPkg env IpAddr maxrtt seq with
  | .error e => (.returned (0, some e), [])
  | .ok res =>
    match Send env res maxttl with
    | (.returned pingRsult, tr) => (.returned ((pingRsult.RTT : ℚ) / 1000000, pingRsult.Error), tr)
    | (.panicked why, tr) => (.panicked why, tr)
    | (.pending, tr) => (.pending, tr)

/-! ## Predicates used in the statements -/

/-- Every call `Send` makes before the receive loop reports no error: the
socket of the family `isIPv6` opens, the deadline and the hop limit are set,
and the request is written. -/
def SetupOk (env : Env) (t : pkg) (ttl : Int) (isIPv6 : Bool) : Prop :=
  env.ListenPacket (if isIPv6 then "ip6:ipv6-icmp" else "ip4:icmp")
      (if isIPv6 then "::" else "0.0.0.0") = none
    ∧ env.SetReadDeadline t.maxrtt = none
    ∧ (if isIPv6 then env.SetHopLimit ttl else env.SetTTL ttl) = none
    ∧ env.WriteTo t.netmsg t.dest = none

/-- The loop body of `Send`, run on the read result `r`, falls through to the
next iteration: the packet is discarded. (On entry to the body `hop` is the
zero value but for `Addr` and `Error`, which the read overwrites.) -/
def Discards (env : Env) (t : pkg) (isIPv6 : Bool) (r : ReadResult) : Prop :=
  ∃ h, (step env t isIPv6 ICMP.zero r).1 = Step.next h

/-- Offset of the identifier inside the fragment of a Time Exceeded body. -/
def idOffset (isIPv6 : Bool) : Nat := if isIPv6 then 44 else 24

/-- The calls made before the receive loop when all of them succeed. -/
def setupTrace (t : pkg) (ttl : Int) (isIPv6 : Bool) : List Effect :=
  [.ListenPacket (if isIPv6 then "ip6:ipv6-icmp" else "ip4:icmp")
      (if isIPv6 then "::" else "0.0.0.0"),
    .SetReadDeadline t.maxrtt,
    if isIPv6 then .SetHopLimit ttl else .SetTTL ttl,
    .WriteTo t.netmsg t.dest]

/-- A result with its address and error cleared; the loop body overwrites both. -/
def ICMP.reset (hop : ICMP) : ICMP := { hop with Addr := .nil, Error := none }

/-! ## Concrete runs -/

/-- An instance of the abstract parts of the library for the concrete runs
below: no extension structure is recognised and every other message type
decodes to a raw body. Neither is reached by the packets used. -/
def plainRest : icmp.Rest := ⟨fun _ _ _ => none, fun _ _ b => .ok (.Other "RawBody" b)⟩

/-- An environment in which every socket call succeeds, with the given read
results and the library decoder. -/
def okEnv (reads : List ReadResult) : Env :=
  ⟨1234, fun _ _ => none, fun _ => none, fun _ => none, fun _ => none, fun _ _ => none, reads,
    icmp.ParseMessage plainRest⟩

/-- The loopback destination 127.0.0.1. -/
def loopback4 : IPAddr := ⟨some [127, 0, 0, 1], ""⟩

/-- The loopback destination ::1. -/
def loopback6 : IPAddr := ⟨some [0, 0, 0, 0, 0, 0, 0, 0, 0, 0, 0, 0, 0, 0, 0, 1], ""⟩

/-- The error a read returns once the deadline has passed. -/
def errDeadline : Error := ⟨"i/o timeout", true⟩

/-- A read that fails with the deadline error. -/
def readTimeout : ReadResult := ⟨[], .nil, some errDeadline, 0⟩

/-- An IPv4 probe with identifier 1234 and sequence 7 towards 127.0.0.1. -/
def probe4 : pkg := ⟨[8, 0, 0, 0, 4, 210, 0, 7], 1234, 7, 1000000000, .ipAddr (some loopback4)⟩

/-- Echo Reply (ICMPv4 type 0) with identifier 1234 and sequence 7, from 127.0.0.1. -/
def readEchoReply4 : ReadResult :=
  ⟨[0, 0, 0, 0, 4, 210, 0, 7], .ipAddr (some loopback4), none, 5000⟩

/-- Echo Reply (ICMPv4 type 0) with identifier 1234 and sequence 8: another probe. -/
def readEchoReplyOther : ReadResult :=
  ⟨[0, 0, 0, 0, 4, 210, 0, 8], .ipAddr (some loopback4), none, 3000⟩

/-- A datagram of two bytes: shorter than the ICMP header. -/
def readShort : ReadResult := ⟨[0, 0], .ipAddr (some loopback4), none, 2000⟩

/-- An environment in which opening the raw socket is refused. -/
def deniedEnv : Env :=
  ⟨1234, fun _ _ => some ⟨"socket: operation not permitted", false⟩, fun _ => none,
    fun _ => none, fun _ => none, fun _ _ => none, [readEchoReply4], icmp.ParseMessage plainRest⟩

/-- A router 10.0.0.1. -/
def router : IPAddr := ⟨some [10, 0, 0, 1], ""⟩

/-- The first 28 bytes of an IPv4 datagram carrying an Echo Request with the
given identifier and sequence bytes: a 20-byte header, then the ICMP header. -/
def fragment4 (id1 id2 seq1 seq2 : Byte) : List Byte :=
  [69, 0, 0, 84, 0, 0, 64, 0, 1, 1, 0, 0, 127, 0, 0, 1, 127, 0, 0, 1,
   8, 0, 0, 0, id1, id2, seq1, seq2]

/-- Time Exceeded (ICMPv4 type 11) from the router, quoting the Echo Request
of identifier 1234 and sequence 7. -/
def readTimeExceeded4 : ReadResult :=
  ⟨[11, 0, 0, 0, 0, 0, 0, 0] ++ fragment4 4 210 0 7, .ipAddr (some router), none, 4000⟩

/-- Time Exceeded (ICMPv4 type 11) whose fragment is cut after 25 bytes. -/
def readTimeExceeded25 : ReadResult :=
  ⟨[11, 0, 0, 0, 0, 0, 0, 0] ++ (fragment4 4 210 0 7).take 25, .ipAddr (some router), none, 4000⟩

/-- Destination Unreachable (ICMPv4 type 3, code 1) from the router, quoting
the Echo Request of identifier 1234 and sequence 7. -/
def readDstUnreach4 : ReadResult :=
  ⟨[3, 1, 0, 0, 0, 0, 0, 0] ++ fragment4 4 210 0 7, .ipAddr (some router), none, 4000⟩

/-- The Echo Reply a responder returns to the Echo Request `request`: type 0
(ICMPv4) or 129 (ICMPv6), code 0, checksum bytes `c1 c2`, and the identifier,
sequence and data of the request unchanged. -/
def echoReplyTo (isIPv6 : Bool) (request : List Byte) (c1 c2 : Byte) : List Byte :=
  [if isIPv6 then 129 else 0, 0, c1, c2] ++ request.drop 4

/-- The probe `RunPing` builds towards 127.0.0.1 for sequence 65536 when the
random source yields identifier 1234: the sequence field on the wire is 0. -/
def probeWide : pkg :=
  ⟨[8, 0, 17, 77, 4, 210, 0, 0] ++ payload, 1234, 65536, 1000000000, .ipAddr (some loopback4)⟩

/-- The Echo Reply of 127.0.0.1 to the request of `probeWide`. -/
def readEchoReplyWide : ReadResult :=
  ⟨echoReplyTo false probeWide.netmsg 25 77, .ipAddr (some loopback4), none, 5000⟩

/-- The Final outcome of `probe4` on `readEchoReply4`. -/
def finalHop : ICMP :=
  { ICMP.zero with Addr := .ipAddr (some loopback4), RTT := 5000, Final := true }

/-- Time Exceeded (ICMPv4 type 11) from the router, quoting an Echo Request of
identifier 1234 and sequence 9. -/
def readTimeExceededSeq9 : ReadResult :=
  ⟨[11, 0, 0, 0, 0, 0, 0, 0] ++ fragment4 4 210 0 9, .ipAddr (some router), none, 4000⟩

/-- A call made from inside the receive loop or on leaving `Send`. -/
def LoopCall (v6 : Bool) (eff : Effect) : Prop :=
  eff = .ReadFrom ∨ (∃ b, eff = .ParseMessage (protoOf v6) b) ∨ ∃ c, eff = .Close c

/-! # Lemmas -/

/-! ## The receive loop -/

theorem Send_of_SetupOk (env : Env) (t : pkg) (ttl : Int) (v6 : Bool)
    (hv : destIsIPv6 t.dest = some v6) (hs : SetupOk env t ttl v6) :
    Send env t ttl = ((recvLoop env t v6 ICMP.zero env.reads).1,
      setupTrace t ttl v6 ++ (recvLoop env t v6 ICMP.zero env.reads).2
        ++ leave v6 (recvLoop env t v6 ICMP.zero env.reads).1) := by
  obtain ⟨h1, h2, h3, h4⟩ := hs
  cases v6 <;> simp_all [Send, setupTrace, ICMP.zero]

theorem step_reset (env : Env) (t : pkg) (v6 : Bool) (hop : ICMP) (r : ReadResult) :
    step env t v6 hop r = step env t v6 hop.reset r := rfl

theorem recvLoop_reset (env : Env) (t : pkg) (v6 : Bool) (hop : ICMP) (rs : List ReadResult) :
    recvLoop env t v6 hop rs = recvLoop env t v6 hop.reset rs := by
  cases rs with
  | nil => rfl
  | cons r rs => simp only [recvLoop]; rw [step_reset]

theorem matchEcho_next (t : pkg) (body : Option MessageBody) (hit hop h : ICMP)
    (hn : matchEcho t body hit hop = .next h) : h = hop := by
  unfold matchEcho at hn
  split at hn
  · split at hn <;> simp_all
  · simp_all

theorem matchTimeExceeded_next (t : pkg) (off : Nat) (body : Option MessageBody)
    (hit hop h : ICMP) (hn : matchTimeExceeded t off body hit hop = .next h) : h = hop := by
  unfold matchTimeExceeded at hn
  split at hn
  · split at hn
    · split at hn
      · simp at hn
      · split at hn <;> simp_all
    · simp_all
  · simp_all

theorem classify_next (t : pkg) (v6 : Bool) (hop h : ICMP) (m : Message) (since : Int)
    (hn : classify t v6 hop m since = .next h) : h = hop := by
  unfold classify at hn
  repeat' split at hn
  all_goals first
    | exact matchEcho_next _ _ _ _ _ hn
    | exact matchTimeExceeded_next _ _ _ _ _ _ hn
    | simp_all

theorem step_next_reset (env : Env) (t : pkg) (v6 : Bool) (hop h : ICMP) (r : ReadResult)
    (hn : (step env t v6 hop r).1 = .next h) : h.reset = hop.reset := by
  unfold step at hn
  cases he : r.err with
  | some e =>
    simp only [he] at hn
    split at hn <;> simp at hn
  | none =>
    simp only [he] at hn
    cases hp : env.ParseMessage (protoOf v6) (List.take 1500 r.data) with
    | error e => simp [hp] at hn
    | ok m =>
      simp only [hp] at hn
      have := classify_next _ _ _ _ _ _ hn
      rw [this]; rfl

theorem step_of_reset_eq (env : Env) (t : pkg) (v6 : Bool) (hop : ICMP) (r : ReadResult)
    (hz : hop.reset = ICMP.zero.reset) : step env t v6 hop r = step env t v6 ICMP.zero r := by
  rw [step_reset env t v6 hop r, hz, ← step_reset]

theorem recvLoop_discards (env : Env) (t : pkg) (v6 : Bool) (front : List ReadResult)
    (hfront : ∀ q ∈ front, Discards env t v6 q) (hop : ICMP) (hz : hop.reset = ICMP.zero.reset)
    (rs : List ReadResult) :
    (recvLoop env t v6 hop (front ++ rs)).1 = (recvLoop env t v6 hop rs).1 := by
  induction front generalizing hop with
  | nil => rfl
  | cons q qs ih =>
    obtain ⟨h, hh⟩ := hfront q (List.mem_cons_self _ _)
    have hq : ∀ x ∈ qs, Discards env t v6 x := fun x hx => hfront x (List.mem_cons_of_mem _ hx)
    rw [← step_of_reset_eq env t v6 hop q hz] at hh
    have hr := step_next_reset env t v6 hop h q hh
    simp only [List.cons_append, recvLoop]
    rcases hstep : step env t v6 hop q with ⟨s, tr⟩
    rw [hstep] at hh
    simp only at hh
    subst hh
    simp only
    show (recvLoop env t v6 h (qs ++ rs)).1 = _
    rw [ih hq h (hr.trans hz), recvLoop_reset env t v6 h rs, hr, ← recvLoop_reset]

theorem step_ok (env : Env) (t : pkg) (v6 : Bool) (hop : ICMP) (r : ReadResult) (m : Message)
    (hr : r.err = none) (hp : env.ParseMessage (protoOf v6) (r.data.take 1500) = .ok m) :
    (step env t v6 hop r).1
      = classify t v6 { hop with Addr := r.addr, Error := none } m r.since := by
  simp only [step, hr, hp]

theorem step_parse_error (env : Env) (t : pkg) (v6 : Bool) (hop : ICMP) (r : ReadResult)
    (e : Error) (hr : r.err = none)
    (hp : env.ParseMessage (protoOf v6) (r.data.take 1500) = .error e) :
    (step env t v6 hop r).1 = .done { hop with Addr := r.addr, Error := some e } := by
  simp only [step, hr, hp]

theorem Send_fst (env : Env) (t : pkg) (ttl : Int) (v6 : Bool) (front : List ReadResult)
    (r : ReadResult) (rest : List ReadResult)
    (hv : destIsIPv6 t.dest = some v6) (hs : SetupOk env t ttl v6)
    (hreads : env.reads = front ++ r :: rest)
    (hfront : ∀ q ∈ front, Discards env t v6 q) :
    (Send env t ttl).1 = (recvLoop env t v6 ICMP.zero (r :: rest)).1 := by
  rw [Send_of_SetupOk env t ttl v6 hv hs, hreads]
  exact recvLoop_discards env t v6 front hfront ICMP.zero rfl (r :: rest)

theorem recvLoop_done (env : Env) (t : pkg) (v6 : Bool) (hop h : ICMP) (r : ReadResult)
    (rest : List ReadResult) (hd : (step env t v6 hop r).1 = .done h) :
    (recvLoop env t v6 hop (r :: rest)).1 = .returned h := by
  simp only [recvLoop]
  rcases hstep : step env t v6 hop r with ⟨s, tr⟩
  rw [hstep] at hd
  simp only at hd
  subst hd
  rfl

theorem recvLoop_panic (env : Env) (t : pkg) (v6 : Bool) (hop : ICMP) (why : String)
    (r : ReadResult) (rest : List ReadResult) (hd : (step env t v6 hop r).1 = .panic why) :
    (recvLoop env t v6 hop (r :: rest)).1 = .panicked why := by
  simp only [recvLoop]
  rcases hstep : step env t v6 hop r with ⟨s, tr⟩
  rw [hstep] at hd
  simp only at hd
  subst hd
  rfl

theorem Send_returned_of_fst (env : Env) (t : pkg) (ttl : Int) (o : Outcome ICMP)
    (h : (Send env t ttl).1 = o) :
    ∃ tr, Send env t ttl = (o, tr) :=
  ⟨(Send env t ttl).2, Prod.ext h rfl⟩

theorem RunPing_of_Send (env : Env) (IpAddr : Option IPAddr) (maxrtt maxttl seq : Int) (t : pkg)
    (hop : ICMP) (tr : List Effect) (ht : newPkg env IpAddr maxrtt seq = .ok t)
    (hsend : Send env t maxttl = (.returned hop, tr)) :
    RunPing env IpAddr maxrtt maxttl seq = (.returned ((hop.RTT : ℚ) / 1000000, hop.Error), tr) := by
  simp [RunPing, ht, hsend]

/-! ## The library decoder and the `Down` flag -/

theorem ParseMessage_dstUnreach_body (rest : icmp.Rest) (proto : Int) (b : List Byte)
    (m : Message) (h : icmp.ParseMessage rest proto b = .ok m)
    (hty : m.Typ = .ipv4 3 ∨ m.Typ = .ipv6 1) :
    ∃ d e, m.Body = some (.DstUnreach d e) := by
  unfold icmp.ParseMessage at h
  split at h
  · simp at h
  · simp only at h
    split at h
    · simp at h
    · rename_i typ htyp
      split at h
      · simp at h
      · rename_i mb hmb
        simp only [Except.ok.injEq] at h
        subst h
        simp only at hty
        simp only [hty, if_true] at hmb
        unfold icmp.parseDstUnreach at hmb
        split at hmb
        · simp at hmb
        · simp only [Except.ok.injEq] at hmb
          exact ⟨_, _, by rw [← hmb]⟩

theorem ParseMessage_dstUnreach (rest : icmp.Rest) (v6 : Bool) (b : List Byte)
    (hlen : 8 ≤ b.length) (hty : (b.getD 0 0).val = if v6 then 1 else 3) :
    ∃ c k d e, icmp.ParseMessage rest (protoOf v6) b
      = .ok ⟨if v6 then .ipv6 1 else .ipv4 3, c, k, some (.DstUnreach d e)⟩ := by
  have hb4 : ¬ (b.length < 4) := by omega
  have hd4 : ¬ ((b.drop 4).length < 4) := by rw [List.length_drop]; omega
  cases v6
  · simp only [Bool.false_eq_true, if_false] at hty
    refine ⟨((b.getD 1 0).val : Int), (Uint16 ((b.drop 2).take 2) : Int),
      (icmp.parseMultipartMessageBody rest 1 (.ipv4 3) (b.drop 4)).1,
      (icmp.parseMultipartMessageBody rest 1 (.ipv4 3) (b.drop 4)).2, ?_⟩
    simp only [icmp.ParseMessage, icmp.parseDstUnreach, protoOf, hb4, hd4, hty, if_false,
      if_true, Bool.false_eq_true, true_or]
  · simp only [if_true] at hty
    refine ⟨((b.getD 1 0).val : Int), (Uint16 ((b.drop 2).take 2) : Int),
      (icmp.parseMultipartMessageBody rest 58 (.ipv6 1) (b.drop 4)).1,
      (icmp.parseMultipartMessageBody rest 58 (.ipv6 1) (b.drop 4)).2, ?_⟩
    simp only [icmp.ParseMessage, icmp.parseDstUnreach, protoOf, hb4, hd4, hty, if_false,
      if_true, or_true, show ¬ ((58 : Int) = 1) by decide]

theorem classify_done_down (t : pkg) (v6 : Bool) (hop h : ICMP) (m : Message) (since : Int)
    (hbody : (m.Typ = .ipv4 3 ∨ m.Typ = .ipv6 1) → ∃ d e, m.Body = some (.DstUnreach d e))
    (hdown : hop.Down = false) (hd : classify t v6 hop m since = .done h) : h.Down = false := by
  unfold classify at hd
  cases v6
  · simp only [Bool.false_eq_true, if_false] at hd
    by_cases h0 : m.Typ = .ipv4 0
    · simp only [h0, if_true, matchEcho] at hd
      split at hd
      · split at hd <;> simp at hd
        rw [← hd]; exact hdown
      · simp at hd
    · by_cases h11 : m.Typ = .ipv4 11
      · simp only [h11, if_true, matchTimeExceeded] at hd
        simp only [show ¬ (ICMPType.ipv4 11 = ICMPType.ipv4 0) by decide, if_false] at hd
        split at hd
        · split at hd
          · split at hd
            · simp at hd
            · split at hd <;> simp at hd
              rw [← hd]; exact hdown
          · simp at hd
        · simp at hd
      · by_cases h3 : m.Typ = .ipv4 3
        · obtain ⟨d, e, hb⟩ := hbody (Or.inl h3)
          simp [h3, hb, matchEcho] at hd
        · simp [h0, h11, h3] at hd
  · simp only [if_true] at hd
    by_cases h0 : m.Typ = .ipv6 129
    · simp only [h0, if_true, matchEcho] at hd
      split at hd
      · split at hd <;> simp at hd
        rw [← hd]; exact hdown
      · simp at hd
    · by_cases h11 : m.Typ = .ipv6 3
      · simp only [h11, if_true, matchTimeExceeded] at hd
        simp only [show ¬ (ICMPType.ipv6 3 = ICMPType.ipv6 129) by decide, if_false] at hd
        split at hd
        · split at hd
          · split at hd
            · simp at hd
            · split at hd <;> simp at hd
              rw [← hd]; exact hdown
          · simp at hd
        · simp at hd
      · by_cases h3 : m.Typ = .ipv6 1
        · obtain ⟨d, e, hb⟩ := hbody (Or.inr h3)
          simp [h3, hb, matchEcho] at hd
        · simp [h0, h11, h3] at hd

theorem step_done_down (env : Env) (rest : icmp.Rest) (t : pkg) (v6 : Bool) (hop h : ICMP)
    (r : ReadResult) (hlib : env.ParseMessage = icmp.ParseMessage rest)
    (hdown : hop.Down = false) (hd : (step env t v6 hop r).1 = .done h) : h.Down = false := by
  cases he : r.err with
  | some e =>
    simp only [step, he] at hd
    split at hd <;> simp at hd <;> rw [← hd] <;> exact hdown
  | none =>
    cases hp : env.ParseMessage (protoOf v6) (r.data.take 1500) with
    | error e =>
      rw [step_parse_error env t v6 hop r e he hp] at hd
      simp at hd
      rw [← hd]; exact hdown
    | ok m =>
      rw [step_ok env t v6 hop r m he hp] at hd
      rw [hlib] at hp
      exact classify_done_down t v6 { hop with Addr := r.addr, Error := none } h m r.since
        (ParseMessage_dstUnreach_body rest _ _ m hp) hdown hd

theorem recvLoop_down (env : Env) (rest : icmp.Rest) (t : pkg) (v6 : Bool)
    (hlib : env.ParseMessage = icmp.ParseMessage rest) (rs : List ReadResult) (hop h : ICMP)
    (hdown : hop.Down = false) (hr : (recvLoop env t v6 hop rs).1 = .returned h) :
    h.Down = false := by
  induction rs generalizing hop with
  | nil => simp [recvLoop] at hr
  | cons r rs ih =>
    simp only [recvLoop] at hr
    rcases hstep : step env t v6 hop r with ⟨s, tr⟩
    rw [hstep] at hr
    cases s with
    | done h1 =>
      simp only [Outcome.returned.injEq] at hr
      subst hr
      exact step_done_down env rest t v6 hop h1 r hlib hdown (by rw [hstep])
    | panic why => simp at hr
    | next h1 =>
      simp only at hr
      have hres := step_next_reset env t v6 hop h1 r (by rw [hstep])
      have hd1 : h1.Down = false := by
        have := congrArg ICMP.Down hres
        simpa [ICMP.reset, hdown] using this
      exact ih h1 hd1 hr

theorem Send_setup_failed (env : Env) (t : pkg) (ttl : Int) (v6 : Bool)
    (hv : destIsIPv6 t.dest = some v6) (hs : ¬ SetupOk env t ttl v6) :
    ∃ hop tr, Send env t ttl = (.returned hop, tr) ∧ hop.Final = false ∧ hop.Down = false
      ∧ hop.Timeout = false ∧ hop.RTT = 0 ∧ Effect.ReadFrom ∉ tr := by
  unfold SetupOk at hs
  cases v6
  · cases hl : env.ListenPacket "ip4:icmp" "0.0.0.0" with
    | some e =>
      refine ⟨ICMP.zero, (Send env t ttl).2, Prod.ext ?_ rfl, rfl, rfl, rfl, rfl, ?_⟩
      · simp [Send, hv, hl]
      · simp [Send, hv, hl, closes]
    | none =>
      cases hd : env.SetReadDeadline t.maxrtt with
      | some e =>
        refine ⟨{ ICMP.zero with Error := some e }, (Send env t ttl).2, Prod.ext ?_ rfl, rfl, rfl, rfl, rfl, ?_⟩
        · simp [Send, hv, hl, hd]
        · simp [Send, hv, hl, hd, closes]
      | none =>
        cases hh : env.SetTTL ttl with
        | some e =>
          refine ⟨{ ICMP.zero with Error := some e }, (Send env t ttl).2, Prod.ext ?_ rfl, rfl, rfl, rfl, rfl, ?_⟩
          · simp [Send, hv, hl, hd, hh]
          · simp [Send, hv, hl, hd, hh, closes]
        | none =>
          cases hw : env.WriteTo t.netmsg t.dest with
          | some e =>
            refine ⟨{ ICMP.zero with Error := some e }, (Send env t ttl).2, Prod.ext ?_ rfl, rfl, rfl, rfl, rfl, ?_⟩
            · simp [Send, hv, hl, hd, hh, hw]
            · simp [Send, hv, hl, hd, hh, hw, closes]
          | none => simp [hl, hd, hh, hw] at hs
  · cases hl : env.ListenPacket "ip6:ipv6-icmp" "::" with
    | some e =>
      refine ⟨ICMP.zero, (Send env t ttl).2, Prod.ext ?_ rfl, rfl, rfl, rfl, rfl, ?_⟩
      · simp [Send, hv, hl]
      · simp [Send, hv, hl, closes]
    | none =>
      cases hd : env.SetReadDeadline t.maxrtt with
      | some e =>
        refine ⟨{ ICMP.zero with Error := some e }, (Send env t ttl).2, Prod.ext ?_ rfl, rfl, rfl, rfl, rfl, ?_⟩
        · simp [Send, hv, hl, hd]
        · simp [Send, hv, hl, hd, closes]
      | none =>
        cases hh : env.SetHopLimit ttl with
        | some e =>
          refine ⟨{ ICMP.zero with Error := some e }, (Send env t ttl).2, Prod.ext ?_ rfl, rfl, rfl, rfl, rfl, ?_⟩
          · simp [Send, hv, hl, hd, hh]
          · simp [Send, hv, hl, hd, hh, closes]
        | none =>
          cases hw : env.WriteTo t.netmsg t.dest with
          | some e =>
            refine ⟨{ ICMP.zero with Error := some e }, (Send env t ttl).2, Prod.ext ?_ rfl, rfl, rfl, rfl, rfl, ?_⟩
            · simp [Send, hv, hl, hd, hh, hw]
            · simp [Send, hv, hl, hd, hh, hw, closes]
          | none => simp [hl, hd, hh, hw] at hs

theorem Send_down_false (env : Env) (rest : icmp.Rest) (t : pkg) (ttl : Int) (hop : ICMP)
    (hlib : env.ParseMessage = icmp.ParseMessage rest)
    (h : (Send env t ttl).1 = .returned hop) : hop.Down = false := by
  cases hv : destIsIPv6 t.dest with
  | none => simp [Send, hv] at h
  | some v6 =>
    by_cases hs : SetupOk env t ttl v6
    · rw [Send_of_SetupOk env t ttl v6 hv hs] at h
      exact recvLoop_down env rest t v6 hlib env.reads ICMP.zero hop rfl h
    · obtain ⟨hop1, tr, hsend, _, hd, _⟩ := Send_setup_failed env t ttl v6 hv hs
      rw [hsend] at h
      simp only [Outcome.returned.injEq] at h
      rw [← h]; exact hd

/-! ## The sequence number on the wire -/

theorem toUint16_lt (n : Int) : toUint16 n < 65536 := by
  unfold toUint16
  omega

theorem Uint16_PutUint16 (v : Nat) (hv : v < 65536) (tail : List Byte) :
    Uint16 ((PutUint16 v ++ tail).take 2) = v := by
  simp only [PutUint16, Uint16, byte, List.cons_append, List.nil_append, List.take_succ_cons,
    List.take_zero, List.getD_cons_zero, List.getD_cons_succ]
  omega

theorem MarshalEcho_drop (typ : ICMPType) (Code ID Seq : Int) (Data b : List Byte)
    (h : icmp.MarshalEcho typ Code ID Seq Data = .ok b) :
    b.drop 4 = icmp.EchoMarshal ID Seq Data := by
  cases typ <;> simp [icmp.MarshalEcho, icmp.protocol] at h <;> rw [← h] <;> simp

theorem EchoMarshal_length (ID Seq : Int) (Data : List Byte) :
    (icmp.EchoMarshal ID Seq Data).length = 4 + Data.length := by
  simp [icmp.EchoMarshal, PutUint16]
  omega

theorem ParseMessage_echoReply (rest : icmp.Rest) (v6 : Bool) (c1 c2 : Byte) (ID Seq : Int)
    (Data : List Byte) :
    ∃ c k, icmp.ParseMessage rest (protoOf v6)
        ([if v6 then 129 else 0, 0, c1, c2] ++ icmp.EchoMarshal ID Seq Data)
      = .ok ⟨if v6 then .ipv6 129 else .ipv4 0, c, k,
          some (.Echo (toUint16 ID) (toUint16 Seq) Data)⟩ := by
  have hid := Uint16_PutUint16 (toUint16 ID) (toUint16_lt ID) (PutUint16 (toUint16 Seq) ++ Data)
  have hseq := Uint16_PutUint16 (toUint16 Seq) (toUint16_lt Seq) Data
  have hlen := EchoMarshal_length ID Seq Data
  have hd2 : (icmp.EchoMarshal ID Seq Data).drop 2 = PutUint16 (toUint16 Seq) ++ Data := by
    simp [icmp.EchoMarshal, PutUint16]
  have hd4 : (icmp.EchoMarshal ID Seq Data).drop 4 = Data := by
    simp [icmp.EchoMarshal, PutUint16]
  have he : icmp.parseEcho (icmp.EchoMarshal ID Seq Data)
      = .ok (.Echo (toUint16 ID) (toUint16 Seq) Data) := by
    unfold icmp.parseEcho
    rw [if_neg (by omega), hd2, hd4, hseq]
    have : icmp.EchoMarshal ID Seq Data
        = PutUint16 (toUint16 ID) ++ (PutUint16 (toUint16 Seq) ++ Data) := by
      simp [icmp.EchoMarshal]
    rw [this, hid]
  have h129 : ((129 : Byte) : Nat) = 129 := rfl
  cases v6
  · refine ⟨0, (Uint16 [c1, c2] : Int), ?_⟩
    simp [icmp.ParseMessage, protoOf, he]
  · refine ⟨0, (Uint16 [c1, c2] : Int), ?_⟩
    simp [icmp.ParseMessage, protoOf, he, h129, hlen]

/-! ## The calls made by a run -/

theorem step_trace (env : Env) (t : pkg) (v6 : Bool) (hop : ICMP) (r : ReadResult) :
    ∀ eff ∈ (step env t v6 hop r).2, LoopCall v6 eff := by
  intro eff he
  unfold step at he
  cases hr : r.err with
  | some e =>
    simp only [hr] at he
    split at he <;> simp at he <;> exact Or.inl he
  | none =>
    simp only [hr] at he
    cases hp : env.ParseMessage (protoOf v6) (List.take 1500 r.data) with
    | error e =>
      simp only [hp, List.mem_cons, List.mem_singleton, List.not_mem_nil, or_false] at he
      rcases he with he | he
      · exact Or.inl he
      · exact Or.inr (Or.inl ⟨_, he⟩)
    | ok m =>
      simp only [hp, List.mem_cons, List.mem_singleton, List.not_mem_nil, or_false] at he
      rcases he with he | he
      · exact Or.inl he
      · exact Or.inr (Or.inl ⟨_, he⟩)

theorem recvLoop_trace (env : Env) (t : pkg) (v6 : Bool) (rs : List ReadResult) (hop : ICMP) :
    ∀ eff ∈ (recvLoop env t v6 hop rs).2, LoopCall v6 eff := by
  induction rs generalizing hop with
  | nil =>
    intro eff he
    simp [recvLoop] at he
    exact Or.inl he
  | cons r rs ih =>
    intro eff he
    have hst := step_trace env t v6 hop r
    simp only [recvLoop] at he
    rcases hstep : step env t v6 hop r with ⟨s, tr⟩
    rw [hstep] at he hst
    cases s with
    | done h1 => exact hst eff he
    | panic why => exact hst eff he
    | next h1 =>
      simp only [List.mem_append] at he
      rcases he with he | he
      · exact hst eff he
      · exact ih h1 eff he

theorem closes_trace (v6 : Bool) : ∀ eff ∈ closes v6, LoopCall v6 eff := by
  intro eff he
  simp only [closes, List.mem_cons, List.mem_singleton, List.not_mem_nil, or_false] at he
  rcases he with he | he
  · exact Or.inr (Or.inr ⟨_, he⟩)
  · exact Or.inr (Or.inr ⟨_, he⟩)

theorem leave_trace (v6 : Bool) (o : Outcome ICMP) : ∀ eff ∈ leave v6 o, LoopCall v6 eff := by
  intro eff he
  cases o with
  | pending => simp [leave] at he
  | returned a => exact closes_trace v6 eff he
  | panicked why => exact closes_trace v6 eff he

theorem Send_trace_shape (env : Env) (t : pkg) (ttl : Int) (v6 : Bool)
    (hv : destIsIPv6 t.dest = some v6) :
    ∃ k tail, (Send env t ttl).2 = (setupTrace t ttl v6).take (k + 1) ++ tail
      ∧ ∀ eff ∈ tail, LoopCall v6 eff := by
  by_cases hs : SetupOk env t ttl v6
  · refine ⟨3, (recvLoop env t v6 ICMP.zero env.reads).2
      ++ leave v6 (recvLoop env t v6 ICMP.zero env.reads).1, ?_, ?_⟩
    · rw [Send_of_SetupOk env t ttl v6 hv hs]
      simp [setupTrace]
    · intro eff he
      rw [List.mem_append] at he
      rcases he with he | he
      · exact recvLoop_trace env t v6 env.reads ICMP.zero eff he
      · exact leave_trace v6 _ eff he
  · unfold SetupOk at hs
    cases v6
    · cases hl : env.ListenPacket "ip4:icmp" "0.0.0.0" with
      | some e => exact ⟨0, [], by simp [Send, hv, hl, setupTrace], by simp⟩
      | none =>
        cases hd : env.SetReadDeadline t.maxrtt with
        | some e =>
          exact ⟨1, closes false, by simp [Send, hv, hl, hd, setupTrace], closes_trace false⟩
        | none =>
          cases hh : env.SetTTL ttl with
          | some e =>
            exact ⟨2, closes false, by simp [Send, hv, hl, hd, hh, setupTrace],
              closes_trace false⟩
          | none =>
            cases hw : env.WriteTo t.netmsg t.dest with
            | some e =>
              exact ⟨3, closes false, by simp [Send, hv, hl, hd, hh, hw, setupTrace],
                closes_trace false⟩
            | none => simp [hl, hd, hh, hw] at hs
    · cases hl : env.ListenPacket "ip6:ipv6-icmp" "::" with
      | some e => exact ⟨0, [], by simp [Send, hv, hl, setupTrace], by simp⟩
      | none =>
        cases hd : env.SetReadDeadline t.maxrtt with
        | some e =>
          exact ⟨1, closes true, by simp [Send, hv, hl, hd, setupTrace], closes_trace true⟩
        | none =>
          cases hh : env.SetHopLimit ttl with
          | some e =>
            exact ⟨2, closes true, by simp [Send, hv, hl, hd, hh, setupTrace],
              closes_trace true⟩
          | none =>
            cases hw : env.WriteTo t.netmsg t.dest with
            | some e =>
              exact ⟨3, closes true, by simp [Send, hv, hl, hd, hh, hw, setupTrace],
                closes_trace true⟩
            | none => simp [hl, hd, hh, hw] at hs

theorem RunPing_trace (env : Env) (IpAddr : Option IPAddr) (maxrtt maxttl seq : Int) (t : pkg)
    (ht : newPkg env IpAddr maxrtt seq = .ok t) :
    (RunPing env IpAddr maxrtt maxttl seq).2 = (Send env t maxttl).2 := by
  simp only [RunPing, ht]
  rcases hsend : Send env t maxttl with ⟨o, tr⟩
  cases o <;> rfl

/-! ## What a returned outcome says about the packet -/

theorem matchEcho_done (t : pkg) (body : Option MessageBody) (hit hop h : ICMP)
    (hd : matchEcho t body hit hop = .done h) :
    h = hit ∧ ∃ d, body = some (.Echo t.id t.seq d) := by
  unfold matchEcho at hd
  split at hd
  · rename_i ID Seq d
    split at hd
    · rename_i hc
      simp only [Step.done.injEq] at hd
      exact ⟨hd.symm, d, by rw [hc.1, hc.2]⟩
    · cases hd
  · cases hd

theorem matchTimeExceeded_done (t : pkg) (off : Nat) (body : Option MessageBody)
    (hit hop h : ICMP) (hd : matchTimeExceeded t off body hit hop = .done h) :
    h = hit ∧ ∃ d exts, body = some (.TimeExceeded d exts) ∧ off + 2 ≤ d.length
      ∧ Uint16 ((d.drop off).take 2) = toUint16 t.id := by
  unfold matchTimeExceeded at hd
  split at hd
  · rename_i d exts
    split at hd
    · split at hd
      · cases hd
      · rename_i s hs
        split at hd
        · rename_i hc
          simp only [Step.done.injEq] at hd
          unfold sliceOf at hs
          split at hs
          · rename_i hb
            simp only [Option.some.injEq] at hs
            refine ⟨hd.symm, d, exts, rfl, hb.2, ?_⟩
            rw [← hs] at hc
            simpa using hc.symm
          · cases hs
        · cases hd
    · cases hd
  · cases hd

theorem classify_done_inv (t : pkg) (v6 : Bool) (hop h : ICMP) (m : Message) (since : Int)
    (hF : hop.Final = false) (hD : hop.Down = false)
    (hd : classify t v6 hop m since = .done h) :
    h.Addr = hop.Addr ∧ h.Error = hop.Error ∧ h.Timeout = hop.Timeout
    ∧ (((h.Final = true ∨ h.Down = true) ∧ ∃ d, m.Body = some (.Echo t.id t.seq d))
      ∨ (h.Final = false ∧ h.Down = false ∧ ∃ d exts, m.Body = some (.TimeExceeded d exts)
          ∧ idOffset v6 + 2 ≤ d.length
          ∧ Uint16 ((d.drop (idOffset v6)).take 2) = toUint16 t.id)) := by
  unfold classify at hd
  cases v6
  · simp only [Bool.false_eq_true, if_false] at hd
    split at hd
    · obtain ⟨rfl, hb⟩ := matchEcho_done _ _ _ _ _ hd
      exact ⟨rfl, rfl, rfl, Or.inl ⟨Or.inl rfl, hb⟩⟩
    · split at hd
      · obtain ⟨rfl, hb⟩ := matchTimeExceeded_done _ _ _ _ _ _ hd
        exact ⟨rfl, rfl, rfl, Or.inr ⟨hF, hD, hb⟩⟩
      · split at hd
        · obtain ⟨rfl, hb⟩ := matchEcho_done _ _ _ _ _ hd
          exact ⟨rfl, rfl, rfl, Or.inl ⟨Or.inr rfl, hb⟩⟩
        · cases hd
  · simp only [if_true] at hd
    split at hd
    · obtain ⟨rfl, hb⟩ := matchEcho_done _ _ _ _ _ hd
      exact ⟨rfl, rfl, rfl, Or.inl ⟨Or.inl rfl, hb⟩⟩
    · split at hd
      · obtain ⟨rfl, hb⟩ := matchTimeExceeded_done _ _ _ _ _ _ hd
        exact ⟨rfl, rfl, rfl, Or.inr ⟨hF, hD, hb⟩⟩
      · split at hd
        · obtain ⟨rfl, hb⟩ := matchEcho_done _ _ _ _ _ hd
          exact ⟨rfl, rfl, rfl, Or.inl ⟨Or.inr rfl, hb⟩⟩
        · cases hd

theorem step_done_inv (env : Env) (t : pkg) (v6 : Bool) (h : ICMP) (r : ReadResult)
    (hd : (step env t v6 ICMP.zero r).1 = .done h) :
    (h.Final = false ∧ h.Down = false ∧ h.Error ≠ none)
    ∨ (r.err = none ∧ ∃ m, env.ParseMessage (protoOf v6) (r.data.take 1500) = .ok m
        ∧ classify t v6 { ICMP.zero with Addr := r.addr, Error := none } m r.since = .done h) := by
  cases hr : r.err with
  | some e =>
    left
    simp only [step, hr] at hd
    split at hd <;> simp only [Step.done.injEq] at hd <;> rw [← hd] <;> simp [ICMP.zero]
  | none =>
    cases hp : env.ParseMessage (protoOf v6) (r.data.take 1500) with
    | error e =>
      left
      rw [step_parse_error env t v6 _ r e hr hp] at hd
      simp only [Step.done.injEq] at hd
      rw [← hd]
      simp [ICMP.zero]
    | ok m =>
      right
      rw [step_ok env t v6 _ r m hr hp] at hd
      exact ⟨rfl, m, rfl, hd⟩

theorem recvLoop_returned_inv (env : Env) (t : pkg) (v6 : Bool) (rs : List ReadResult)
    (hop h : ICMP) (hz : hop.reset = ICMP.zero.reset)
    (hr : (recvLoop env t v6 hop rs).1 = .returned h) :
    ∃ front r rest, rs = front ++ r :: rest ∧ (∀ q ∈ front, Discards env t v6 q)
      ∧ (step env t v6 ICMP.zero r).1 = .done h := by
  induction rs generalizing hop with
  | nil => simp [recvLoop] at hr
  | cons r rs ih =>
    have heq := step_of_reset_eq env t v6 hop r hz
    simp only [recvLoop] at hr
    rcases hstep : step env t v6 hop r with ⟨s, tr⟩
    rw [hstep] at hr heq
    cases s with
    | done h1 =>
      simp only [Outcome.returned.injEq] at hr
      subst hr
      exact ⟨[], r, rs, rfl, by simp, by rw [← heq]⟩
    | panic why => simp at hr
    | next h1 =>
      simp only at hr
      have hres := step_next_reset env t v6 hop h1 r (by rw [hstep])
      obtain ⟨front, r1, rest, hrs, hfront, hdone⟩ := ih h1 (hres.trans hz) hr
      refine ⟨r :: front, r1, rest, by rw [hrs]; rfl, ?_, hdone⟩
      intro q hq
      rw [List.mem_cons] at hq
      rcases hq with hq | hq
      · subst hq
        exact ⟨h1, by rw [← heq]⟩
      · exact hfront q hq

theorem classify_next_of (t : pkg) (v6 : Bool) (hop : ICMP) (m : Message) (since : Int)
    (he : ∀ hit, matchEcho t m.Body hit hop = .next hop)
    (ht : ∀ hit, matchTimeExceeded t (idOffset v6) m.Body hit hop = .next hop) :
    classify t v6 hop m since = .next hop := by
  unfold classify
  cases v6
  · simp only [idOffset, Bool.false_eq_true, if_false] at ht ⊢
    split_ifs
    · exact he _
    · exact ht _
    · exact he _
    · rfl
  · simp only [idOffset, if_true] at ht ⊢
    split_ifs
    · exact he _
    · exact ht _
    · exact he _
    · rfl

/-! # The claims -/

/-! ## C1 -/

/-- C1, as the claim states it, fails: an IPv4 probe with identifier 1234 and
sequence 7 reads a Time Exceeded message that quotes an Echo Request of
identifier 1234 and sequence 9. `Send` returns the Intermediate outcome on it
although the sequence it carries differs. -/
theorem intermediate_ignores_sequence :
    (Send (okEnv [readTimeExceededSeq9]) probe4 1).1
        = .returned { ICMP.zero with Addr := .ipAddr (some router), RTT := 4000 }
    ∧ Effect.ReadFrom ∈ (Send (okEnv [readTimeExceededSeq9]) probe4 1).2
    ∧ icmp.ParseMessage plainRest 1 readTimeExceededSeq9.data
        = .ok ⟨.ipv4 11, 0, 0, some (.TimeExceeded (fragment4 4 210 0 9) [])⟩
    ∧ Uint16 (((fragment4 4 210 0 9).drop 24).take 2) = 1234
    ∧ Uint16 (((fragment4 4 210 0 9).drop 26).take 2) = 9
    ∧ probe4.id = 1234 ∧ probe4.seq = 7 :=
  ⟨by decide, by decide, rfl, by decide, by decide, rfl, rfl⟩

/-- C1, amended: if `Send` returns a Final or an Unreachable outcome, the packet
it returned on (read after discarded packets only, and decoded without error)
has an Echo body with `ID = id` and `Seq = seq`; if it returns an Intermediate
outcome after a read, that packet has a Time Exceeded body whose fragment holds
the low 16 bits of `id` at offset 24 (IPv4) or 44 (IPv6), the sequence in the
fragment not being compared. A packet with an Echo body whose `ID` or `Seq`
differs, and one with a Time Exceeded body whose fragment holds another
16-bit identifier at that offset, is discarded and the next packet is read. -/
theorem Send_outcome_correlates (env : Env) (t : pkg) (ttl : Int) :
    (∀ hop tr, Send env t ttl = (.returned hop, tr) →
      (hop.Final = true ∨ hop.Down = true
        ∨ (hop.Error = none ∧ hop.Final = false ∧ hop.Down = false ∧ hop.Timeout = false
            ∧ Effect.ReadFrom ∈ tr)) →
      ∃ v6 front r rest m, destIsIPv6 t.dest = some v6 ∧ env.reads = front ++ r :: rest
        ∧ (∀ q ∈ front, Discards env t v6 q) ∧ r.err = none
        ∧ env.ParseMessage (protoOf v6) (r.data.take 1500) = .ok m ∧ hop.Addr = r.addr
        ∧ ((hop.Final = true ∨ hop.Down = true) → ∃ d, m.Body = some (.Echo t.id t.seq d))
        ∧ ((hop.Final = false ∧ hop.Down = false) →
            ∃ d exts, m.Body = some (.TimeExceeded d exts) ∧ idOffset v6 + 2 ≤ d.length
              ∧ Uint16 ((d.drop (idOffset v6)).take 2) = toUint16 t.id))
    ∧ (∀ v6 r m ID Seq d, r.err = none →
        env.ParseMessage (protoOf v6) (r.data.take 1500) = .ok m →
        m.Body = some (.Echo ID Seq d) → (ID ≠ t.id ∨ Seq ≠ t.seq) → Discards env t v6 r)
    ∧ (∀ v6 r m d exts, r.err = none →
        env.ParseMessage (protoOf v6) (r.data.take 1500) = .ok m →
        m.Body = some (.TimeExceeded d exts) → idOffset v6 + 2 ≤ d.length →
        Uint16 ((d.drop (idOffset v6)).take 2) ≠ toUint16 t.id → Discards env t v6 r) := by
  refine ⟨?_, ?_, ?_⟩
  · intro hop tr hsend hout
    cases hv : destIsIPv6 t.dest with
    | none => simp [Send, hv] at hsend
    | some v6 =>
      by_cases hs : SetupOk env t ttl v6
      · have hloop : (recvLoop env t v6 ICMP.zero env.reads).1 = .returned hop := by
          rw [Send_of_SetupOk env t ttl v6 hv hs] at hsend
          exact (Prod.mk.inj hsend).1
        obtain ⟨front, r, rest, hreads, hfront, hdone⟩ :=
          recvLoop_returned_inv env t v6 env.reads ICMP.zero hop rfl hloop
        rcases step_done_inv env t v6 hop r hdone with ⟨hF, hD, hE⟩ | ⟨hr, m, hp, hc⟩
        · rcases hout with h | h | h
          · rw [hF] at h; cases h
          · rw [hD] at h; cases h
          · exact absurd h.1 hE
        · obtain ⟨hA, _, _, hcase⟩ := classify_done_inv t v6 _ hop m r.since rfl rfl hc
          refine ⟨v6, front, r, rest, m, rfl, hreads, hfront, hr, hp, hA, ?_, ?_⟩
          · intro hfd
            rcases hcase with ⟨_, hb⟩ | ⟨hF, hD, _⟩
            · exact hb
            · rcases hfd with h | h
              · rw [hF] at h; cases h
              · rw [hD] at h; cases h
          · intro hfd
            rcases hcase with ⟨h, _⟩ | ⟨_, _, hb⟩
            · rcases h with h | h
              · rw [hfd.1] at h; cases h
              · rw [hfd.2] at h; cases h
            · exact hb
      · obtain ⟨hop1, tr1, hsend1, hF, hD, _, _, hR⟩ := Send_setup_failed env t ttl v6 hv hs
        rw [hsend1] at hsend
        obtain ⟨h1, h2⟩ := Prod.mk.inj hsend
        simp only [Outcome.returned.injEq] at h1
        subst h1 h2
        rcases hout with h | h | h
        · rw [hF] at h; cases h
        · rw [hD] at h; cases h
        · exact absurd h.2.2.2.2 hR
  · intro v6 r m ID Seq d hr hp hb hne
    refine ⟨{ ICMP.zero with Addr := r.addr, Error := none }, ?_⟩
    rw [step_ok env t v6 _ r m hr hp]
    have hc : ¬ (t.id = ID ∧ t.seq = Seq) := by
      rintro ⟨h1, h2⟩
      rcases hne with h | h
      · exact h h1.symm
      · exact h h2.symm
    apply classify_next_of
    · intro hit
      simp only [matchEcho, hb, hc, if_false]
    · intro hit
      simp only [matchTimeExceeded, hb]
  · intro v6 r m d exts hr hp hb hlen hne
    refine ⟨{ ICMP.zero with Addr := r.addr, Error := none }, ?_⟩
    rw [step_ok env t v6 _ r m hr hp]
    apply classify_next_of
    · intro hit
      simp only [matchEcho, hb]
    · intro hit
      have h1 : d.length > idOffset v6 := by omega
      have h2 : idOffset v6 ≤ idOffset v6 + 2 ∧ idOffset v6 + 2 ≤ d.length := ⟨by omega, hlen⟩
      have h3 : idOffset v6 + 2 - idOffset v6 = 2 := by omega
      have hne1 : ¬ (toUint16 t.id = Uint16 ((d.drop (idOffset v6)).take 2)) :=
        fun h => hne h.symm
      simp only [matchTimeExceeded, hb, sliceOf, h1, h2, h3, hne1, if_true, if_false, and_self]

/-- Witness of the amended C1: an IPv4 probe that reads a reply to another probe
and then its own Echo Reply; the Final outcome comes from the second packet. -/
theorem Send_outcome_correlates_witness :
    ∃ v6 front r rest m, destIsIPv6 probe4.dest = some v6
      ∧ (okEnv [readEchoReplyOther, readEchoReply4]).reads = front ++ r :: rest
      ∧ (∀ q ∈ front, Discards (okEnv [readEchoReplyOther, readEchoReply4]) probe4 v6 q)
      ∧ r.err = none
      ∧ (okEnv [readEchoReplyOther, readEchoReply4]).ParseMessage (protoOf v6)
          (r.data.take 1500) = .ok m
      ∧ finalHop.Addr = r.addr
      ∧ ((finalHop.Final = true ∨ finalHop.Down = true) →
          ∃ d, m.Body = some (.Echo probe4.id probe4.seq d))
      ∧ ((finalHop.Final = false ∧ finalHop.Down = false) →
          ∃ d exts, m.Body = some (.TimeExceeded d exts) ∧ idOffset v6 + 2 ≤ d.length
            ∧ Uint16 ((d.drop (idOffset v6)).take 2) = toUint16 probe4.id) :=
  (Send_outcome_correlates (okEnv [readEchoReplyOther, readEchoReply4]) probe4 64).1 finalHop
    (Send (okEnv [readEchoReplyOther, readEchoReply4]) probe4 64).2
    (Prod.ext (by decide) rfl) (Or.inl rfl)

/-! ## C2 -/

/-- C2, as the claim states it, fails: an IPv4 probe (identifier 1234, sequence
7) reads a two-byte datagram and then its own Echo Reply. `Send` does not go on
to the reply: it returns at once with the decode error in `Error`, and
`RunPing` returns that error. -/
theorem decode_error_is_returned :
    (Send (okEnv [readShort, readEchoReply4]) probe4 64).1
        = .returned { ICMP.zero with Addr := readShort.addr,
                                     Error := some icmp.errMessageTooShort }
    ∧ (RunPing (okEnv [readShort, readEchoReply4]) (some loopback4) 1000000000 64 7).1
        = .returned (0, some icmp.errMessageTooShort) := by
  constructor
  · decide
  · have h : newPkg (okEnv [readShort, readEchoReply4]) (some loopback4) 1000000000 7
        = .ok ⟨[8, 0, 17, 70, 4, 210, 0, 7] ++ payload, 1234, 7, 1000000000,
            .ipAddr (some loopback4)⟩ := rfl
    obtain ⟨tr, htr⟩ := Send_returned_of_fst (okEnv [readShort, readEchoReply4])
      ⟨[8, 0, 17, 70, 4, 210, 0, 7] ++ payload, 1234, 7, 1000000000, .ipAddr (some loopback4)⟩ 64
      (.returned { ICMP.zero with Addr := readShort.addr,
                                  Error := some icmp.errMessageTooShort }) (by decide)
    rw [RunPing_of_Send _ _ _ _ _ _ _ tr h htr]
    simp [ICMP.zero]

/-- C2, amended: when setup and send succeed and an inbound packet fails to
decode, `Send` stops listening and returns with the decode error in `Error`
(`Final`, `Down`, `Timeout` false, `RTT` zero, `Addr` the source of that
packet), and `RunPing` returns round-trip time 0 and the decode error. -/
theorem Send_decode_error (env : Env) (t : pkg) (ttl : Int) (v6 : Bool)
    (front : List ReadResult) (r : ReadResult) (rest : List ReadResult) (e : Error)
    (hv : destIsIPv6 t.dest = some v6) (hs : SetupOk env t ttl v6)
    (hreads : env.reads = front ++ r :: rest)
    (hfront : ∀ q ∈ front, Discards env t v6 q)
    (hr : r.err = none)
    (hp : env.ParseMessage (protoOf v6) (r.data.take 1500) = .error e) :
    (∃ hop tr, Send env t ttl = (.returned hop, tr) ∧ hop.Error = some e ∧ hop.Final = false
        ∧ hop.Down = false ∧ hop.Timeout = false ∧ hop.RTT = 0 ∧ hop.Addr = r.addr)
    ∧ ∀ IpAddr maxrtt seq, newPkg env IpAddr maxrtt seq = .ok t →
        ∃ tr, RunPing env IpAddr maxrtt ttl seq = (.returned (0, some e), tr) := by
  have hfst := Send_fst env t ttl v6 front r rest hv hs hreads hfront
  rw [recvLoop_done env t v6 _ _ r rest (step_parse_error env t v6 _ r e hr hp)] at hfst
  obtain ⟨tr, htr⟩ := Send_returned_of_fst env t ttl _ hfst
  refine ⟨⟨_, tr, htr, rfl, rfl, rfl, rfl, rfl, rfl⟩, ?_⟩
  intro IpAddr maxrtt seq hpkg
  refine ⟨tr, ?_⟩
  rw [RunPing_of_Send env IpAddr maxrtt ttl seq t _ tr hpkg htr]
  simp [ICMP.zero]

/-- Witness of the amended C2: a reply to another probe, then a two-byte datagram. -/
theorem Send_decode_error_witness :
    (∃ hop tr, Send (okEnv [readEchoReplyOther, readShort]) probe4 64 = (.returned hop, tr)
        ∧ hop.Error = some icmp.errMessageTooShort ∧ hop.Final = false ∧ hop.Down = false
        ∧ hop.Timeout = false ∧ hop.RTT = 0 ∧ hop.Addr = readShort.addr)
    ∧ ∀ IpAddr maxrtt seq,
        newPkg (okEnv [readEchoReplyOther, readShort]) IpAddr maxrtt seq = .ok probe4 →
        ∃ tr, RunPing (okEnv [readEchoReplyOther, readShort]) IpAddr maxrtt 64 seq
          = (.returned (0, some icmp.errMessageTooShort), tr) :=
  Send_decode_error (okEnv [readEchoReplyOther, readShort]) probe4 64 false
    [readEchoReplyOther] readShort [] icmp.errMessageTooShort rfl
    ⟨rfl, rfl, rfl, rfl⟩ rfl
    (by
      intro q hq
      rw [List.mem_singleton] at hq
      subst hq
      exact ⟨_, rfl⟩)
    rfl rfl

/-! ## C3 -/

/-- C3 fails on the code: when opening the raw socket fails with an error `e`,
`Send` returns the zero result, whose `Error` is nil, and `RunPing` returns
round-trip time 0 and a nil error; `e` is lost. -/
theorem Send_listen_error_lost (env : Env) (t : pkg) (ttl : Int) (v6 : Bool) (e : Error)
    (hv : destIsIPv6 t.dest = some v6)
    (hl : env.ListenPacket (if v6 then "ip6:ipv6-icmp" else "ip4:icmp")
      (if v6 then "::" else "0.0.0.0") = some e) :
    (∃ tr, Send env t ttl = (.returned ICMP.zero, tr) ∧ ICMP.zero.Error = none)
    ∧ ∀ IpAddr maxrtt seq, newPkg env IpAddr maxrtt seq = .ok t →
        ∃ tr, RunPing env IpAddr maxrtt ttl seq = (.returned (0, none), tr) := by
  have hsend : Send env t ttl = (.returned ICMP.zero,
      [.ListenPacket (if v6 then "ip6:ipv6-icmp" else "ip4:icmp")
        (if v6 then "::" else "0.0.0.0")]) := by
    simp only [Send, hv, hl]
  refine ⟨⟨_, hsend, rfl⟩, ?_⟩
  intro IpAddr maxrtt seq hpkg
  refine ⟨[.ListenPacket (if v6 then "ip6:ipv6-icmp" else "ip4:icmp")
        (if v6 then "::" else "0.0.0.0")], ?_⟩
  rw [RunPing_of_Send env IpAddr maxrtt ttl seq t _ _ hpkg hsend]
  simp [ICMP.zero]

/-- The failing input of C3: an IPv4 probe in a process that may not open raw sockets. -/
theorem Send_listen_error_lost_witness :
    (∃ tr, Send deniedEnv probe4 64 = (.returned ICMP.zero, tr) ∧ ICMP.zero.Error = none)
    ∧ ∀ IpAddr maxrtt seq, newPkg deniedEnv IpAddr maxrtt seq = .ok probe4 →
        ∃ tr, RunPing deniedEnv IpAddr maxrtt 64 seq = (.returned (0, none), tr) :=
  Send_listen_error_lost deniedEnv probe4 64 false ⟨"socket: operation not permitted", false⟩
    rfl rfl

/-! ## C4 -/

/-- C4 fails on the code: when setup and send succeed and the next inbound
packet decodes as a Time Exceeded message of the family of the probe whose
fragment is exactly 25 bytes (IPv4) or 45 bytes (IPv6) long, the guard
`len(rply.Data) > 24` (`> 44`) lets it through and the slice `Data[24:26]`
(`Data[44:46]`) is out of range: `Send` panics. -/
theorem Send_time_exceeded_off_by_one (env : Env) (t : pkg) (ttl : Int) (v6 : Bool)
    (front : List ReadResult) (r : ReadResult) (rest : List ReadResult) (m : Message)
    (d : List Byte) (exts : List Extension)
    (hv : destIsIPv6 t.dest = some v6) (hs : SetupOk env t ttl v6)
    (hreads : env.reads = front ++ r :: rest)
    (hfront : ∀ q ∈ front, Discards env t v6 q)
    (hr : r.err = none)
    (hp : env.ParseMessage (protoOf v6) (r.data.take 1500) = .ok m)
    (hty : m.Typ = if v6 then .ipv6 3 else .ipv4 11)
    (hb : m.Body = some (.TimeExceeded d exts))
    (hlen : d.length = idOffset v6 + 1) :
    ∃ tr, Send env t ttl = (.panicked "slice bounds out of range", tr) := by
  have hfst := Send_fst env t ttl v6 front r rest hv hs hreads hfront
  have hpanic : (step env t v6 ICMP.zero r).1 = .panic "slice bounds out of range" := by
    rw [step_ok env t v6 _ r m hr hp]
    cases v6 <;> simp_all [classify, matchTimeExceeded, sliceOf, idOffset]
  rw [recvLoop_panic env t v6 _ _ r rest hpanic] at hfst
  exact Send_returned_of_fst env t ttl _ hfst

/-- The failing input of C4: an IPv4 probe reads a 33-byte Time Exceeded
message, whose fragment has 25 bytes. -/
theorem Send_time_exceeded_off_by_one_witness :
    ∃ tr, Send (okEnv [readTimeExceeded25, readEchoReply4]) probe4 64
      = (.panicked "slice bounds out of range", tr) :=
  Send_time_exceeded_off_by_one (okEnv [readTimeExceeded25, readEchoReply4]) probe4 64 false
    [] readTimeExceeded25 [readEchoReply4]
    ⟨.ipv4 11, 0, 0, some (.TimeExceeded ((fragment4 4 210 0 7).take 25) [])⟩
    ((fragment4 4 210 0 7).take 25) [] rfl ⟨rfl, rfl, rfl, rfl⟩ rfl
    (by intro q hq; cases hq) rfl rfl rfl rfl rfl

/-! ## C5 -/

/-- C5: when setup and send succeed and, after any number of discarded packets,
a read fails with an error that satisfies the timeout predicate, `Send` returns
with `Timeout` true, `Final` and `Down` false and `RTT` zero (the error is the
read error), and `RunPing` returns round-trip time 0 and that non-nil error. -/
theorem Send_read_timeout (env : Env) (t : pkg) (ttl : Int) (v6 : Bool)
    (front : List ReadResult) (r : ReadResult) (rest : List ReadResult) (e : Error)
    (hv : destIsIPv6 t.dest = some v6) (hs : SetupOk env t ttl v6)
    (hreads : env.reads = front ++ r :: rest)
    (hfront : ∀ q ∈ front, Discards env t v6 q)
    (hr : r.err = some e) (he : e.timeout = true) :
    (∃ hop tr, Send env t ttl = (.returned hop, tr) ∧ hop.Timeout = true ∧ hop.Final = false
        ∧ hop.Down = false ∧ hop.RTT = 0 ∧ hop.Error = some e)
    ∧ ∀ IpAddr maxrtt seq, newPkg env IpAddr maxrtt seq = .ok t →
        ∃ tr, RunPing env IpAddr maxrtt ttl seq = (.returned (0, some e), tr) := by
  have hfst := Send_fst env t ttl v6 front r rest hv hs hreads hfront
  have hdone : (step env t v6 ICMP.zero r).1
      = .done { ICMP.zero with Addr := r.addr, Error := some e, Timeout := true } := by
    simp [step, hr, he]
  rw [recvLoop_done env t v6 _ _ r rest hdone] at hfst
  obtain ⟨tr, htr⟩ := Send_returned_of_fst env t ttl _ hfst
  refine ⟨⟨_, tr, htr, rfl, rfl, rfl, rfl, rfl⟩, ?_⟩
  intro IpAddr maxrtt seq hpkg
  refine ⟨tr, ?_⟩
  rw [RunPing_of_Send env IpAddr maxrtt ttl seq t _ tr hpkg htr]
  simp [ICMP.zero]

/-- Witness of C5: an IPv4 probe that reads a reply to another probe and then
runs into the deadline. -/
theorem Send_read_timeout_witness :
    (∃ hop tr, Send (okEnv [readEchoReplyOther, readTimeout]) probe4 64 = (.returned hop, tr)
        ∧ hop.Timeout = true ∧ hop.Final = false ∧ hop.Down = false ∧ hop.RTT = 0
        ∧ hop.Error = some errDeadline)
    ∧ ∀ IpAddr maxrtt seq,
        newPkg (okEnv [readEchoReplyOther, readTimeout]) IpAddr maxrtt seq = .ok probe4 →
        ∃ tr, RunPing (okEnv [readEchoReplyOther, readTimeout]) IpAddr maxrtt 64 seq
          = (.returned (0, some errDeadline), tr) :=
  Send_read_timeout (okEnv [readEchoReplyOther, readTimeout]) probe4 64 false
    [readEchoReplyOther] readTimeout [] errDeadline rfl
    ⟨rfl, rfl, rfl, rfl⟩ rfl
    (by
      intro q hq
      rw [List.mem_singleton] at hq
      subst hq
      exact ⟨_, rfl⟩)
    rfl rfl

/-! ## C6 -/

/-- C6: when setup and send succeed and the next inbound packet decodes as an
Echo Reply of the family of the probe (ICMPv4 type 0, ICMPv6 type 129) whose
Echo body has `ID = id` and `Seq = seq`, `Send` returns with `Final` true,
`Down` and `Timeout` false, `Error` nil and `Addr` the source address of that
packet. -/
theorem Send_echo_reply_final (env : Env) (t : pkg) (ttl : Int) (v6 : Bool)
    (front : List ReadResult) (r : ReadResult) (rest : List ReadResult) (m : Message)
    (d : List Byte)
    (hv : destIsIPv6 t.dest = some v6) (hs : SetupOk env t ttl v6)
    (hreads : env.reads = front ++ r :: rest)
    (hfront : ∀ q ∈ front, Discards env t v6 q)
    (hr : r.err = none)
    (hp : env.ParseMessage (protoOf v6) (r.data.take 1500) = .ok m)
    (hty : m.Typ = if v6 then .ipv6 129 else .ipv4 0)
    (hb : m.Body = some (.Echo t.id t.seq d)) :
    ∃ hop tr, Send env t ttl = (.returned hop, tr) ∧ hop.Final = true ∧ hop.Down = false
      ∧ hop.Timeout = false ∧ hop.Error = none ∧ hop.Addr = r.addr := by
  have hfst := Send_fst env t ttl v6 front r rest hv hs hreads hfront
  have hdone : (step env t v6 ICMP.zero r).1
      = .done { ICMP.zero with Addr := r.addr, Final := true, RTT := r.since } := by
    cases v6 <;> simp_all [step, classify, matchEcho, ICMP.zero]
  rw [recvLoop_done env t v6 _ _ r rest hdone] at hfst
  obtain ⟨tr, htr⟩ := Send_returned_of_fst env t ttl _ hfst
  exact ⟨_, tr, htr, rfl, rfl, rfl, rfl, rfl⟩

/-- Witness of C6: an IPv4 probe that first reads a reply to another probe and
then its own Echo Reply. -/
theorem Send_echo_reply_final_witness :
    ∃ hop tr, Send (okEnv [readEchoReplyOther, readEchoReply4]) probe4 64 = (.returned hop, tr)
      ∧ hop.Final = true ∧ hop.Down = false ∧ hop.Timeout = false ∧ hop.Error = none
      ∧ hop.Addr = readEchoReply4.addr :=
  Send_echo_reply_final (okEnv [readEchoReplyOther, readEchoReply4]) probe4 64 false
    [readEchoReplyOther] readEchoReply4 [] ⟨.ipv4 0, 0, 0, some (.Echo 1234 7 [])⟩ [] rfl
    ⟨rfl, rfl, rfl, rfl⟩ rfl
    (by
      intro q hq
      rw [List.mem_singleton] at hq
      subst hq
      exact ⟨_, rfl⟩)
    rfl rfl rfl rfl

/-! ## C7 -/

/-- C7 fails on the code: `icmp.ParseMessage` decodes a Destination
Unreachable message (ICMPv4 type 3, ICMPv6 type 1) to a `*icmp.DstUnreach`, so
the assertion `result.Body.(*icmp.Echo)` in the `DestinationUnreachable` arm
never holds. Whatever its fragment quotes, such a packet (of at least eight
bytes) is discarded, and no run of `Send` returns with `Down` true. -/
theorem Send_never_reports_unreachable (env : Env) (rest : icmp.Rest) (t : pkg) (v6 : Bool)
    (r : ReadResult) (hlib : env.ParseMessage = icmp.ParseMessage rest)
    (hr : r.err = none) (hlen : 8 ≤ (r.data.take 1500).length)
    (hty : ((r.data.take 1500).getD 0 0).val = if v6 then 1 else 3) :
    Discards env t v6 r
    ∧ ∀ ttl hop tr, Send env t ttl = (.returned hop, tr) → hop.Down = false := by
  constructor
  · obtain ⟨c, k, d, e, hp⟩ := ParseMessage_dstUnreach rest v6 (r.data.take 1500) hlen hty
    rw [← hlib] at hp
    refine ⟨{ ICMP.zero with Addr := r.addr, Error := none }, ?_⟩
    rw [step_ok env t v6 _ r _ hr hp]
    cases v6 <;> simp [classify, matchEcho]
  · intro ttl hop tr hsend
    exact Send_down_false env rest t ttl hop hlib (by rw [hsend])

/-- The failing input of C7: an IPv4 probe (identifier 1234, sequence 7) reads
a Destination Unreachable message quoting its own Echo Request; the message is
discarded and the probe ends in Timeout at the next read. -/
theorem Send_never_reports_unreachable_witness :
    (Send (okEnv [readDstUnreach4, readTimeout]) probe4 64).1
        = .returned { ICMP.zero with Error := some errDeadline, Timeout := true }
    ∧ Discards (okEnv [readDstUnreach4, readTimeout]) probe4 false readDstUnreach4
    ∧ ∀ ttl hop tr, Send (okEnv [readDstUnreach4, readTimeout]) probe4 ttl = (.returned hop, tr) →
        hop.Down = false :=
  ⟨by decide,
    Send_never_reports_unreachable (okEnv [readDstUnreach4, readTimeout]) plainRest probe4 false
      readDstUnreach4 rfl rfl (by decide) (by decide)⟩

/-! ## C8 -/

/-- C8: when setup and send succeed and the next inbound packet decodes as a
Time Exceeded message of the family of the probe (ICMPv4 type 11, ICMPv6 type 3)
whose fragment holds, as a big-endian 16-bit value at byte offsets 24 to 26
(IPv4) or 44 to 46 (IPv6), the value `id`, `Send` returns the Intermediate
outcome: `Final`, `Down` and `Timeout` false, `Error` nil, and `Addr` the
source address of that packet. -/
theorem Send_time_exceeded_intermediate (env : Env) (t : pkg) (ttl : Int) (v6 : Bool)
    (front : List ReadResult) (r : ReadResult) (rest : List ReadResult) (m : Message)
    (d : List Byte) (exts : List Extension)
    (hv : destIsIPv6 t.dest = some v6) (hs : SetupOk env t ttl v6)
    (hreads : env.reads = front ++ r :: rest)
    (hfront : ∀ q ∈ front, Discards env t v6 q)
    (hr : r.err = none)
    (hp : env.ParseMessage (protoOf v6) (r.data.take 1500) = .ok m)
    (hty : m.Typ = if v6 then .ipv6 3 else .ipv4 11)
    (hb : m.Body = some (.TimeExceeded d exts))
    (hlen : idOffset v6 + 2 ≤ d.length)
    (hid : (Uint16 ((d.drop (idOffset v6)).take 2) : Int) = t.id) :
    ∃ hop tr, Send env t ttl = (.returned hop, tr) ∧ hop.Final = false ∧ hop.Down = false
      ∧ hop.Timeout = false ∧ hop.Error = none ∧ hop.Addr = r.addr := by
  have hfst := Send_fst env t ttl v6 front r rest hv hs hreads hfront
  have hu : toUint16 t.id = Uint16 ((d.drop (idOffset v6)).take 2) := by
    have hlt : Uint16 ((d.drop (idOffset v6)).take 2) < 65536 := by
      unfold Uint16
      have h0 := (((d.drop (idOffset v6)).take 2).getD 0 0).isLt
      have h1 := (((d.drop (idOffset v6)).take 2).getD 1 0).isLt
      omega
    unfold toUint16
    rw [← hid]
    omega
  have hdone : (step env t v6 ICMP.zero r).1
      = .done { ICMP.zero with Addr := r.addr, RTT := r.since } := by
    rw [step_ok env t v6 _ r m hr hp]
    cases v6
    · have h24 : 24 < d.length := by simp [idOffset] at hlen; omega
      have h26 : 26 ≤ d.length := by simp [idOffset] at hlen; omega
      simp [idOffset] at hu
      simp [classify, matchTimeExceeded, ICMP.zero, hty, hb, sliceOf, h24, h26, hu]
    · have h44 : 44 < d.length := by simp [idOffset] at hlen; omega
      have h46 : 46 ≤ d.length := by simp [idOffset] at hlen; omega
      simp [idOffset] at hu
      simp [classify, matchTimeExceeded, ICMP.zero, hty, hb, sliceOf, h44, h46, hu]
  rw [recvLoop_done env t v6 _ _ r rest hdone] at hfst
  obtain ⟨tr, htr⟩ := Send_returned_of_fst env t ttl _ hfst
  exact ⟨_, tr, htr, rfl, rfl, rfl, rfl, rfl⟩

/-- Witness of C8: an IPv4 probe that reads a reply to another probe and then a
Time Exceeded message from a router quoting its own request. -/
theorem Send_time_exceeded_intermediate_witness :
    ∃ hop tr, Send (okEnv [readEchoReplyOther, readTimeExceeded4]) probe4 1
        = (.returned hop, tr)
      ∧ hop.Final = false ∧ hop.Down = false ∧ hop.Timeout = false ∧ hop.Error = none
      ∧ hop.Addr = readTimeExceeded4.addr :=
  Send_time_exceeded_intermediate (okEnv [readEchoReplyOther, readTimeExceeded4]) probe4 1 false
    [readEchoReplyOther] readTimeExceeded4 []
    ⟨.ipv4 11, 0, 0, some (.TimeExceeded (fragment4 4 210 0 7) [])⟩ (fragment4 4 210 0 7) [] rfl
    ⟨rfl, rfl, rfl, rfl⟩ rfl
    (by
      intro q hq
      rw [List.mem_singleton] at hq
      subst hq
      exact ⟨_, rfl⟩)
    rfl rfl rfl rfl (by decide) (by decide)

/-! ## C9 -/

/-- C9: for a destination whose IP is not nil, the family is IPv6 exactly when
`IP.To4()` is nil, and `RunPing` and `Send` agree on it. In the IPv6 case
`RunPing` builds (and marshals, as first byte) an ICMPv6 type 128 Echo Request,
and `Send` opens the socket "ip6:ipv6-icmp" on "::" and decodes every packet
with protocol 58; otherwise `RunPing` builds an ICMPv4 type 8 Echo and `Send`
opens "ip4:icmp" on "0.0.0.0" and decodes with protocol 1. The socket is the
first call `Send` makes and the only one it opens. -/
theorem family_agreement (env : Env) (a : IPAddr) (ip : List Byte) (maxrtt maxttl seq : Int)
    (v6 : Bool) (ha : a.IP = some ip) (hv6 : v6 = (To4 ip).isNone) :
    destIsIPv6 (.ipAddr (some a)) = some v6
    ∧ requestType (some a) = (if v6 then .ipv6 128 else .ipv4 8)
    ∧ (∃ t, newPkg env (some a) maxrtt seq = .ok t ∧ t.dest = .ipAddr (some a)
        ∧ t.netmsg.head? = some (if v6 then 128 else 8)
        ∧ (RunPing env (some a) maxrtt maxttl seq).2 = (Send env t maxttl).2)
    ∧ ∀ t ttl, t.dest = .ipAddr (some a) →
        (Send env t ttl).2.head? = some (.ListenPacket
            (if v6 then "ip6:ipv6-icmp" else "ip4:icmp") (if v6 then "::" else "0.0.0.0"))
        ∧ (∀ n ad, Effect.ListenPacket n ad ∈ (Send env t ttl).2 →
            n = (if v6 then "ip6:ipv6-icmp" else "ip4:icmp")
              ∧ ad = (if v6 then "::" else "0.0.0.0"))
        ∧ (∀ p b, Effect.ParseMessage p b ∈ (Send env t ttl).2 → p = if v6 then 58 else 1) := by
  have hdest : destIsIPv6 (.ipAddr (some a)) = some v6 := by
    simp [destIsIPv6, ha, hv6]
  have hreq : requestType (some a) = (if v6 then .ipv6 128 else .ipv4 8) := by
    simp [requestType, ha, hv6]
  refine ⟨hdest, hreq, ?_, ?_⟩
  · cases hm : icmp.MarshalEcho (requestType (some a)) 0 (Int.ofNat (env.rand % 65535)) seq
        payload with
    | error e =>
      cases v6 <;> simp [hreq, icmp.MarshalEcho, icmp.protocol] at hm
    | ok netmsg =>
      have hpkg : newPkg env (some a) maxrtt seq
          = .ok ⟨netmsg, Int.ofNat (env.rand % 65535), seq, maxrtt, .ipAddr (some a)⟩ := by
        simp only [newPkg, hm]
      refine ⟨_, hpkg, rfl, ?_, RunPing_trace env (some a) maxrtt maxttl seq _ hpkg⟩
      cases v6 <;> simp [hreq, icmp.MarshalEcho, icmp.protocol] at hm <;> rw [← hm] <;> rfl
  · intro t ttl ht
    rw [← ht] at hdest
    obtain ⟨k, tail, htr, htail⟩ := Send_trace_shape env t ttl v6 hdest
    rw [htr]
    refine ⟨?_, ?_, ?_⟩
    · simp [setupTrace]
    · intro n ad hmem
      rw [List.mem_append] at hmem
      rcases hmem with hmem | hmem
      · have := List.mem_of_mem_take hmem
        cases v6 <;> simp [setupTrace] at this <;> exact this
      · rcases htail _ hmem with h | ⟨b, h⟩ | ⟨c, h⟩ <;> cases h
    · intro p b hmem
      rw [List.mem_append] at hmem
      rcases hmem with hmem | hmem
      · have := List.mem_of_mem_take hmem
        cases v6 <;> simp [setupTrace] at this
      · rcases htail _ hmem with h | ⟨b1, h⟩ | ⟨c, h⟩
        · cases h
        · simp only [Effect.ParseMessage.injEq] at h
          rw [h.1]; rfl
        · cases h

/-- Witness of C9: the IPv6 loopback address, which has no IPv4 form. `RunPing`
builds a type 128 request, and every run of `Send` towards it opens
"ip6:ipv6-icmp" first and decodes with protocol 58. -/
theorem family_agreement_witness :
    destIsIPv6 (.ipAddr (some loopback6)) = some true
    ∧ requestType (some loopback6) = .ipv6 128
    ∧ (∃ t, newPkg (okEnv [readTimeout]) (some loopback6) 1000000000 7 = .ok t
        ∧ t.dest = .ipAddr (some loopback6) ∧ t.netmsg.head? = some 128
        ∧ (RunPing (okEnv [readTimeout]) (some loopback6) 1000000000 64 7).2
            = (Send (okEnv [readTimeout]) t 64).2)
    ∧ ∀ t ttl, t.dest = .ipAddr (some loopback6) →
        (Send (okEnv [readTimeout]) t ttl).2.head? = some (.ListenPacket "ip6:ipv6-icmp" "::")
        ∧ (∀ n ad, Effect.ListenPacket n ad ∈ (Send (okEnv [readTimeout]) t ttl).2 →
            n = "ip6:ipv6-icmp" ∧ ad = "::")
        ∧ (∀ p b, Effect.ParseMessage p b ∈ (Send (okEnv [readTimeout]) t ttl).2 → p = 58) :=
  family_agreement (okEnv [readTimeout]) loopback6
    [0, 0, 0, 0, 0, 0, 0, 0, 0, 0, 0, 0, 0, 0, 0, 1] 1000000000 64 7 true rfl (by decide)

/-! ## C10 -/

/-- C10 fails on the code: `RunPing` stores the caller's `seq` unreduced but
marshals it as `uint16`, and `Send` compares the stored value with the 16-bit
field of the reply. For a sequence number outside 0..65535 the Echo Reply that
echoes the identifier and sequence fields of the transmitted request is
discarded instead of being classified as Final. -/
theorem RunPing_wide_seq_drops_reply (env : Env) (rest : icmp.Rest) (IpAddr : Option IPAddr)
    (maxrtt seq : Int) (t : pkg) (v6 : Bool) (r : ReadResult) (c1 c2 : Byte)
    (hlib : env.ParseMessage = icmp.ParseMessage rest)
    (hseq : seq < 0 ∨ 65535 < seq)
    (hpkg : newPkg env IpAddr maxrtt seq = .ok t)
    (hr : r.err = none) (hdata : r.data = echoReplyTo v6 t.netmsg c1 c2) :
    Discards env t v6 r := by
  cases hm : icmp.MarshalEcho (requestType IpAddr) 0 (Int.ofNat (env.rand % 65535)) seq payload with
  | error e => simp only [newPkg, hm] at hpkg; cases hpkg
  | ok netmsg =>
    simp only [newPkg, hm, Except.ok.injEq] at hpkg
    subst hpkg
    have hdrop := MarshalEcho_drop _ _ _ _ _ _ hm
    simp only [echoReplyTo, hdrop] at hdata
    have hlen : r.data.length ≤ 1500 := by
      rw [hdata]
      simp only [List.length_append, EchoMarshal_length, List.length_cons, List.length_nil]
      have : payload.length = 56 := by decide
      omega
    obtain ⟨c, k, hp⟩ := ParseMessage_echoReply rest v6 c1 c2
      (Int.ofNat (env.rand % 65535)) seq payload
    rw [← hlib, ← hdata, ← List.take_of_length_le hlen] at hp
    refine ⟨{ ICMP.zero with Addr := r.addr, Error := none }, ?_⟩
    rw [step_ok env _ v6 _ r _ hr hp]
    have hne : ¬ (seq = ((toUint16 seq : Nat) : Int)) := by
      have := toUint16_lt seq
      omega
    cases v6 <;> simp [classify, matchEcho, hne]

/-- The failing input of C10: `RunPing` towards 127.0.0.1 with sequence 65536
(identifier 1234). The request on the wire carries sequence 0; the Echo Reply
that echoes it is discarded, and the probe ends in Timeout at the next read. -/
theorem RunPing_wide_seq_drops_reply_witness :
    newPkg (okEnv [readEchoReplyWide, readTimeout]) (some loopback4) 1000000000 65536
        = .ok probeWide
    ∧ (Send (okEnv [readEchoReplyWide, readTimeout]) probeWide 64).1
        = .returned { ICMP.zero with Error := some errDeadline, Timeout := true }
    ∧ Discards (okEnv [readEchoReplyWide, readTimeout]) probeWide false readEchoReplyWide :=
  ⟨rfl, by decide,
    RunPing_wide_seq_drops_reply (okEnv [readEchoReplyWide, readTimeout]) plainRest
      (some loopback4) 1000000000 65536 probeWide false readEchoReplyWide 25 77 rfl
      (by decide) rfl rfl rfl⟩

end nettools
